import Mathlib

/-!
# Verification of the opportunities/events feed-generation pipeline

A shallow embedding of the date-normalization and feed-serialization
logic of the community-opportunities repository:

* `scripts/generate_rss.js` — RSS 2.0 feed generator,
* `scripts/generate_ical.js` — iCalendar generators (combined and
  events-only),
* the opportunities-only iCal generator variant (`unnamed/part_002`),
* the client-side date classifiers in `community-events/js/events.js`
  and the client date formatter (`unnamed/part_000`).

JavaScript `Date` values are modelled as integer milliseconds since the
Unix epoch; the calendar arithmetic (`MakeDay`, `YearFromTime`,
`MonthFromTime`, `DateFromTime` of ECMA-262) is modelled by explicit
proleptic-Gregorian day-number functions.  The host's local timezone,
which ECMAScript consults for local-time `Date` operations
(`new Date(string)` without UTC designator, `setHours`,
`getTimezoneOffset`), is modelled as an explicit fixed offset parameter
`off` in minutes, with the ECMAScript sign convention
(`off = UTC − local`, so UTC−5 has `off = 300`).
-/

set_option maxHeartbeats 1000000

namespace CommunityOpps

/-! ## Calendar kernel (model of ECMA-262 day-number arithmetic) -/

/-- Leap-year test of the proleptic Gregorian calendar (ECMAScript
`DaysInYear y = 366`). -/
def isLeap (y : Nat) : Bool := y % 4 == 0 && (y % 100 != 0 || y % 400 == 0)

/-- Days in month `m` (1..12) of a year of leapness `lp`. -/
def dimL (lp : Bool) (m : Nat) : Nat :=
  match m with
  | 2 => if lp then 29 else 28
  | 4 | 6 | 9 | 11 => 30
  | _ => 31

/-- Days in month `m` (1..12) of year `y`. -/
def daysInMonth (y m : Nat) : Nat := dimL (isLeap y) m

/-- A calendar date (year, month 1..12, day 1..31). -/
structure Ymd where
  y : Nat
  m : Nat
  d : Nat
deriving DecidableEq, Repr

/-- A real calendar date in the four-digit-year range of the
`YYYY-MM-DD` date grammar. -/
def validYmd (x : Ymd) : Bool :=
  decide (1 ≤ x.y) && decide (x.y ≤ 9999) && decide (1 ≤ x.m) && decide (x.m ≤ 12) &&
  decide (1 ≤ x.d) && decide (x.d ≤ daysInMonth x.y x.m)

/-- Number of leap years among `0, 1, ..., y-1`. -/
def leapsBefore (y : Nat) : Nat := (y + 3) / 4 - (y + 99) / 100 + (y + 399) / 400

/-- Day number of 1 January of year `y`, counted from 0000-01-01 (day 0)
in the proleptic Gregorian calendar (ECMAScript `DayFromYear`, shifted
so that all values are naturals; 1970-01-01 is day 719528). -/
def dayOfJan1 (y : Nat) : Nat := 365 * y + leapsBefore y

/-- First day-of-year (0-based) of month `m` (1..12); `lp` says whether
the year is leap. -/
def monthStartDoy (lp : Bool) (m : Nat) : Nat :=
  (match m with
   | 1 => 0 | 2 => 31 | 3 => 59 | 4 => 90 | 5 => 120 | 6 => 151 | 7 => 181
   | 8 => 212 | 9 => 243 | 10 => 273 | 11 => 304 | _ => 334) +
  (if 3 ≤ m ∧ lp = true then 1 else 0)

/-- Day number of a calendar date, counted from 0000-01-01 (ECMAScript
`MakeDay`, shifted by 719528 so that values are naturals). -/
def daysFromCivil (x : Ymd) : Nat :=
  dayOfJan1 x.y + monthStartDoy (isLeap x.y) x.m + (x.d - 1)

/-- The year containing day number `z` (ECMAScript `YearFromTime`): the
largest `y` with `dayOfJan1 y ≤ z`.  The downward candidate chain
starting at `z / 365` is exhaustive for years up to 9999. -/
def yearFromDay (z : Nat) : Nat :=
  let g := z / 365
  if dayOfJan1 g ≤ z then g
  else if dayOfJan1 (g - 1) ≤ z then g - 1
  else if dayOfJan1 (g - 2) ≤ z then g - 2
  else if dayOfJan1 (g - 3) ≤ z then g - 3
  else if dayOfJan1 (g - 4) ≤ z then g - 4
  else if dayOfJan1 (g - 5) ≤ z then g - 5
  else if dayOfJan1 (g - 6) ≤ z then g - 6
  else if dayOfJan1 (g - 7) ≤ z then g - 7
  else g - 8

/-- Month (1..12) containing 0-based day-of-year `doy` in a year of
leapness `lp` (ECMAScript `MonthFromTime`). -/
def monthFromDoy (lp : Bool) (doy : Nat) : Nat :=
  let L := if lp then 1 else 0
  if doy < 31 then 1
  else if doy < 59 + L then 2
  else if doy < 90 + L then 3
  else if doy < 120 + L then 4
  else if doy < 151 + L then 5
  else if doy < 181 + L then 6
  else if doy < 212 + L then 7
  else if doy < 243 + L then 8
  else if doy < 273 + L then 9
  else if doy < 304 + L then 10
  else if doy < 334 + L then 11
  else 12

/-- Calendar date of day number `z` (days since 0000-01-01); inverse of
`daysFromCivil` (ECMAScript `YearFromTime`/`MonthFromTime`/
`DateFromTime`). -/
def civilFromDays (z : Nat) : Ymd :=
  let y := yearFromDay z
  let doy := z - dayOfJan1 y
  let m := monthFromDoy (isLeap y) doy
  ⟨y, m, doy - monthStartDoy (isLeap y) m + 1⟩

/-- `isLeap` in arithmetic form. -/
theorem isLeap_iff (y : Nat) :
    isLeap y = true ↔ (y % 4 = 0 ∧ (y % 100 ≠ 0 ∨ y % 400 = 0)) := by
  simp [isLeap, Bool.and_eq_true, Bool.or_eq_true, beq_iff_eq, bne_iff_ne]

/-- One year advances `dayOfJan1` by that year's length. -/
theorem dayOfJan1_succ (y : Nat) :
    dayOfJan1 (y + 1) = dayOfJan1 y + 365 + (if isLeap y then 1 else 0) := by
  by_cases h : isLeap y = true
  · rw [if_pos h]; rw [isLeap_iff] at h
    simp only [dayOfJan1, leapsBefore]; omega
  · rw [if_neg h]
    have h' : ¬(y % 4 = 0 ∧ (y % 100 ≠ 0 ∨ y % 400 = 0)) := fun hc => h ((isLeap_iff y).mpr hc)
    simp only [dayOfJan1, leapsBefore]; omega

/-- `dayOfJan1` is monotone. -/
theorem dayOfJan1_mono {a b : Nat} (h : a ≤ b) : dayOfJan1 a ≤ dayOfJan1 b := by
  simp only [dayOfJan1, leapsBefore]; omega

/-- Table fact: the day-of-year of a valid month/day is below the year
length. -/
theorem doyTable : ∀ lp : Bool, ∀ m, m < 13 → ∀ d, d < 32 →
    1 ≤ m → 1 ≤ d → d ≤ dimL lp m →
    monthStartDoy lp m + (d - 1) < 365 + (if lp then 1 else 0) := by decide

/-- Table fact: `monthFromDoy` inverts `monthStartDoy` on valid
month/day pairs. -/
theorem monthTable : ∀ lp : Bool, ∀ m, m < 13 → ∀ d, d < 32 →
    1 ≤ m → 1 ≤ d → d ≤ dimL lp m →
    monthFromDoy lp (monthStartDoy lp m + (d - 1)) = m := by decide

/-- Table fact: consecutive month starts differ by the month length. -/
theorem monthSuccTable : ∀ lp : Bool, ∀ m, m < 12 → 1 ≤ m →
    monthStartDoy lp (m + 1) = monthStartDoy lp m + dimL lp m := by decide

/-- Fields of a valid date are in range (day < 32 form). -/
theorem validYmd_bounds (x : Ymd) (h : validYmd x = true) :
    1 ≤ x.y ∧ x.y ≤ 9999 ∧ 1 ≤ x.m ∧ x.m < 13 ∧ 1 ≤ x.d ∧ x.d < 32 ∧
      x.d ≤ dimL (isLeap x.y) x.m := by
  simp only [validYmd, Bool.and_eq_true, decide_eq_true_eq, daysInMonth] at h
  obtain ⟨⟨⟨⟨⟨hy1, hy2⟩, hm1⟩, hm2⟩, hd1⟩, hd2⟩ := h
  have hdim : dimL (isLeap x.y) x.m ≤ 31 := by
    cases hl : isLeap x.y <;> simp only [dimL] <;>
      match x.m with
      | 2 => simp
      | 4 | 6 | 9 | 11 => simp
      | 0 | 1 | 3 | 5 | 7 | 8 | 10 | 12 => simp
      | (n + 13) => simp
  omega

/-- The day-of-year of a valid date is below the year length. -/
theorem doy_lt_yearLen (x : Ymd) (h : validYmd x = true) :
    monthStartDoy (isLeap x.y) x.m + (x.d - 1) < 365 + (if isLeap x.y then 1 else 0) := by
  obtain ⟨hy1, hy2, hm1, hm2, hd1, hd2, hdim⟩ := validYmd_bounds x h
  exact doyTable (isLeap x.y) x.m hm2 x.d hd2 hm1 hd1 hdim

/-- A valid date's day number is below the next year's start. -/
theorem daysFromCivil_lt_next (x : Ymd) (h : validYmd x = true) :
    daysFromCivil x < dayOfJan1 (x.y + 1) := by
  have h1 := doy_lt_yearLen x h
  have h2 := dayOfJan1_succ x.y
  simp only [daysFromCivil]
  omega

/-- `yearFromDay` recovers the year of a valid date. -/
theorem yearFromDay_daysFromCivil (x : Ymd) (h : validYmd x = true) :
    yearFromDay (daysFromCivil x) = x.y := by
  have h2 := daysFromCivil_lt_next x h
  obtain ⟨hy1, hy2, _, _, _, _, _⟩ := validYmd_bounds x h
  have h1 : dayOfJan1 x.y ≤ daysFromCivil x := by
    simp only [daysFromCivil]; omega
  have hlow : 365 * x.y ≤ dayOfJan1 x.y := by
    simp only [dayOfJan1]; omega
  have hhigh : dayOfJan1 (x.y + 1) ≤ 365 * (x.y + 1) + 2425 := by
    simp only [dayOfJan1, leapsBefore]; omega
  have hcand : ∀ w, (w ≤ x.y → dayOfJan1 w ≤ daysFromCivil x) ∧
      (x.y < w → daysFromCivil x < dayOfJan1 w) := fun w =>
    ⟨fun hw => le_trans (dayOfJan1_mono hw) h1,
     fun hw => lt_of_lt_of_le h2 (dayOfJan1_mono hw)⟩
  have c0 := hcand (daysFromCivil x / 365)
  have c1 := hcand (daysFromCivil x / 365 - 1)
  have c2 := hcand (daysFromCivil x / 365 - 2)
  have c3 := hcand (daysFromCivil x / 365 - 3)
  have c4 := hcand (daysFromCivil x / 365 - 4)
  have c5 := hcand (daysFromCivil x / 365 - 5)
  have c6 := hcand (daysFromCivil x / 365 - 6)
  have c7 := hcand (daysFromCivil x / 365 - 7)
  have c8 := hcand (daysFromCivil x / 365 - 8)
  simp only [yearFromDay]
  split_ifs <;> omega

/-- Round trip: the calendar date of the day number of a valid date is
that date. -/
theorem civilFromDays_daysFromCivil (x : Ymd) (h : validYmd x = true) :
    civilFromDays (daysFromCivil x) = x := by
  have hy := yearFromDay_daysFromCivil x h
  obtain ⟨hy1, hy2, hm1, hm2, hd1, hd2, hdim⟩ := validYmd_bounds x h
  have hm := monthTable (isLeap x.y) x.m hm2 x.d hd2 hm1 hd1 hdim
  have hdoy : daysFromCivil x - dayOfJan1 x.y = monthStartDoy (isLeap x.y) x.m + (x.d - 1) := by
    simp only [daysFromCivil]; omega
  simp only [civilFromDays, hy]
  rw [hdoy, hm]
  have hdone : monthStartDoy (isLeap x.y) x.m + (x.d - 1) - monthStartDoy (isLeap x.y) x.m + 1
      = x.d := by omega
  rw [hdone]

/-- The calendar successor of a date. -/
def nextDayYmd (x : Ymd) : Ymd :=
  if x.d < daysInMonth x.y x.m then ⟨x.y, x.m, x.d + 1⟩
  else if x.m < 12 then ⟨x.y, x.m + 1, 1⟩
  else ⟨x.y + 1, 1, 1⟩

/-- Adding one to a valid date's day number lands on its calendar
successor's day number. -/
theorem daysFromCivil_nextDay (x : Ymd) (h : validYmd x = true) :
    daysFromCivil (nextDayYmd x) = daysFromCivil x + 1 := by
  obtain ⟨hy1, hy2, hm1, hm2, hd1, hd2, hdim⟩ := validYmd_bounds x h
  have hsucc := dayOfJan1_succ x.y
  have hdoy := doy_lt_yearLen x h
  simp only [nextDayYmd, daysInMonth]
  by_cases hcase : x.d < dimL (isLeap x.y) x.m
  · rw [if_pos hcase]
    simp only [daysFromCivil]
    omega
  · rw [if_neg hcase]
    have hdd : x.d = dimL (isLeap x.y) x.m := by omega
    by_cases hm12 : x.m < 12
    · rw [if_pos hm12]
      have hms := monthSuccTable (isLeap x.y) x.m hm12 hm1
      simp only [daysFromCivil]
      omega
    · rw [if_neg hm12]
      have hm12' : x.m = 12 := by omega
      rw [hm12'] at hdd hdoy
      have hlast : monthStartDoy (isLeap x.y) 12 = 334 + (if isLeap x.y then 1 else 0) := by
        cases isLeap x.y <;> simp [monthStartDoy]
      have hdim12 : dimL (isLeap x.y) 12 = 31 := by
        cases isLeap x.y <;> simp [dimL]
      have hjan : monthStartDoy (isLeap (x.y + 1)) 1 = 0 := by
        cases isLeap (x.y + 1) <;> simp [monthStartDoy]
      simp only [daysFromCivil, hm12', hjan]
      omega


/-! ## JavaScript time values

A JS `Date` holds an integer count of milliseconds since the Unix epoch
(invalid dates are `Option.none` at the call sites below).  UTC field
access goes through `civilFromDays`; local-time operations shift by the
host offset `off` (minutes, ECMAScript sign convention). -/

/-- Day number (since 0000-01-01) shift of the Unix epoch. -/
def epochShift : Int := 719528

/-- Time value of UTC midnight of calendar date `x`
(ECMAScript `Date.UTC(y, m-1, d)`). -/
def utcMidnightMs (x : Ymd) : Int := ((daysFromCivil x : Int) - epochShift) * 86400000

/-- Calendar date of the UTC day containing time value `t`
(`getUTCFullYear`/`getUTCMonth`/`getUTCDate`). -/
def civilOfMs (t : Int) : Ymd := civilFromDays (t / 86400000 + epochShift).toNat

/-- Millisecond of the UTC day of time value `t`. -/
def msOfDayUTC (t : Int) : Nat := (t % 86400000).toNat

/-- Truncation of `t` to the start of its day (a helper for modelling
`setHours(0,0,0,0)`). -/
def floorDayMs (t : Int) : Int := t / 86400000 * 86400000

/-- ECMAScript `setHours(0, 0, 0, 0)` on a date with time value `t`,
for a host at fixed offset `off` minutes: truncate to midnight in the
host's local frame. -/
def setHours0 (off t : Int) : Int := floorDayMs (t - off * 60000) + off * 60000

/-! ## Date-string parsing (model of `new Date(string)`)

The repository's date data uses the ECMA-262 Date Time String Format
subset `YYYY-MM-DD`, optionally followed by `THH:MM[:SS][Z]`.  Per
ECMA-262, a date-only form is interpreted as UTC midnight, a date-time
form without `Z` as host-local time, and a date-time form with `Z` as
UTC; strings outside this grammar (including the sentinel `"Ongoing"`)
yield an invalid date (`none`), as V8 does for the data in this
repository. -/

/-- Decimal digit character `'0'..'9'` for `k < 10`. -/
def dChar (k : Nat) : Char := Char.ofNat (48 + k)

/-- Value of a digit character. -/
def digitVal (c : Char) : Nat := c.toNat - 48

/-- Time value of a parsed date-time, before the UTC/local decision:
days and milliseconds within the day. -/
def dateTimeMs (x : Ymd) (h mi s : Nat) : Int :=
  utcMidnightMs x + ((h * 3600 + mi * 60 + s) * 1000 : Nat)

/-- `new Date(string)` on the list of characters of the string; `off`
is the host offset in minutes, used for date-time forms without `Z`.
Patterns discriminate only on list structure; separator characters are
checked by the guards. -/
def jsDateParseChars (off : Int) (l : List Char) : Option Int :=
  match l with
  | [y1, y2, y3, y4, q1, m1, m2, q2, d1, d2] =>
    if q1 = '-' ∧ q2 = '-' ∧
        (y1.isDigit && y2.isDigit && y3.isDigit && y4.isDigit &&
          m1.isDigit && m2.isDigit && d1.isDigit && d2.isDigit) = true then
      let y := 1000 * digitVal y1 + 100 * digitVal y2 + 10 * digitVal y3 + digitVal y4
      let m := 10 * digitVal m1 + digitVal m2
      let d := 10 * digitVal d1 + digitVal d2
      if 1 ≤ m ∧ m ≤ 12 ∧ 1 ≤ d ∧ d ≤ daysInMonth y m then some (utcMidnightMs ⟨y, m, d⟩)
      else none
    else none
  | y1 :: y2 :: y3 :: y4 :: q1 :: m1 :: m2 :: q2 :: d1 :: d2 :: qT :: rest =>
    if q1 = '-' ∧ q2 = '-' ∧ qT = 'T' ∧
        (y1.isDigit && y2.isDigit && y3.isDigit && y4.isDigit &&
          m1.isDigit && m2.isDigit && d1.isDigit && d2.isDigit) = true then
      let y := 1000 * digitVal y1 + 100 * digitVal y2 + 10 * digitVal y3 + digitVal y4
      let m := 10 * digitVal m1 + digitVal m2
      let d := 10 * digitVal d1 + digitVal d2
      if 1 ≤ m ∧ m ≤ 12 ∧ 1 ≤ d ∧ d ≤ daysInMonth y m then
        match rest with
        | [h1, h2, c1, n1, n2] =>
          if c1 = ':' ∧ (h1.isDigit && h2.isDigit && n1.isDigit && n2.isDigit) = true then
            let h := 10 * digitVal h1 + digitVal h2
            let n := 10 * digitVal n1 + digitVal n2
            if h ≤ 23 ∧ n ≤ 59 then some (dateTimeMs ⟨y, m, d⟩ h n 0 + off * 60000) else none
          else none
        | [h1, h2, c1, n1, n2, qZ] =>
          if c1 = ':' ∧ qZ = 'Z' ∧
              (h1.isDigit && h2.isDigit && n1.isDigit && n2.isDigit) = true then
            let h := 10 * digitVal h1 + digitVal h2
            let n := 10 * digitVal n1 + digitVal n2
            if h ≤ 23 ∧ n ≤ 59 then some (dateTimeMs ⟨y, m, d⟩ h n 0) else none
          else none
        | [h1, h2, c1, n1, n2, c2, s1, s2] =>
          if c1 = ':' ∧ c2 = ':' ∧
              (h1.isDigit && h2.isDigit && n1.isDigit && n2.isDigit &&
                s1.isDigit && s2.isDigit) = true then
            let h := 10 * digitVal h1 + digitVal h2
            let n := 10 * digitVal n1 + digitVal n2
            let sec := 10 * digitVal s1 + digitVal s2
            if h ≤ 23 ∧ n ≤ 59 ∧ sec ≤ 59 then some (dateTimeMs ⟨y, m, d⟩ h n sec + off * 60000)
            else none
          else none
        | [h1, h2, c1, n1, n2, c2, s1, s2, qZ] =>
          if c1 = ':' ∧ c2 = ':' ∧ qZ = 'Z' ∧
              (h1.isDigit && h2.isDigit && n1.isDigit && n2.isDigit &&
                s1.isDigit && s2.isDigit) = true then
            let h := 10 * digitVal h1 + digitVal h2
            let n := 10 * digitVal n1 + digitVal n2
            let sec := 10 * digitVal s1 + digitVal s2
            if h ≤ 23 ∧ n ≤ 59 ∧ sec ≤ 59 then some (dateTimeMs ⟨y, m, d⟩ h n sec) else none
          else none
        | _ => none
      else none
    else none
  | _ => none

/-- `new Date(string)` (model). -/
def jsDateParse (off : Int) (s : String) : Option Int := jsDateParseChars off s.data

/-- Match of the regex `\d{1,2}:\d{2}(:\d{2})?` anchored at the head of
`l` (used by `hasTimeComponent`). -/
def timeAt (l : List Char) : Bool :=
  match l with
  | a :: b :: rest1 =>
    (a.isDigit && b == ':' &&
      (match rest1 with | c :: d :: _ => c.isDigit && d.isDigit | _ => false)) ||
    (a.isDigit && b.isDigit &&
      (match rest1 with | c :: d :: e :: _ => c == ':' && d.isDigit && e.isDigit | _ => false))
  | _ => false

/-- Search of `timeAt` anywhere in the list (regex `test`). -/
def hasTimeChars (l : List Char) : Bool :=
  match l with
  | [] => false
  | _ :: t => timeAt l || hasTimeChars t

/-- `hasTimeComponent` of `generate_ical.js` (and `unnamed/part_002`):
true when `\d{1,2}:\d{2}(:\d{2})?` occurs anywhere in the string. -/
def hasTimeComponent (s : String) : Bool :=
  if s = "" then false else hasTimeChars s.data

/-! ## Rendering helpers -/

/-- Two-digit zero-padded decimal (JS `String(n).padStart(2, '0')` for
`n < 100`). -/
def pad2 (n : Nat) : String := String.mk [dChar (n / 10 % 10), dChar (n % 10)]

/-- JS `String(n)` on a natural number. -/
def jsNatStr (n : Nat) : String := Nat.repr n

/-- `YYYYMMDD` rendering of `generate_ical.js` line 94-97: the year via
`String(yyyy)` (unpadded), month and day two-digit padded. -/
def ymd8 (x : Ymd) : String := jsNatStr x.y ++ pad2 x.m ++ pad2 x.d

/-- `toISOString().slice(0, 19)` of a time value:
`YYYY-MM-DDTHH:mm:ss`. -/
def isoDateTime19 (t : Int) : String :=
  let x := civilOfMs t
  let md := msOfDayUTC t
  jsNatStr x.y ++ "-" ++ pad2 x.m ++ "-" ++ pad2 x.d ++ "T" ++
    pad2 (md / 3600000) ++ ":" ++ pad2 (md % 3600000 / 60000) ++ ":" ++ pad2 (md % 60000 / 1000)

/-- `toISOString()` with `-` and `:` removed and milliseconds dropped,
plus `Z` (`generate_ical.js` line 101): `YYYYMMDDTHHMMSSZ`. -/
def isoBasicZ (t : Int) : String :=
  let x := civilOfMs t
  let md := msOfDayUTC t
  jsNatStr x.y ++ pad2 x.m ++ pad2 x.d ++ "T" ++
    pad2 (md / 3600000) ++ pad2 (md % 3600000 / 60000) ++ pad2 (md % 60000 / 1000) ++ "Z"

/-- Weekday abbreviation, `0 = Sun`. -/
def weekdayName (w : Nat) : String :=
  match w with
  | 0 => "Sun" | 1 => "Mon" | 2 => "Tue" | 3 => "Wed" | 4 => "Thu" | 5 => "Fri" | _ => "Sat"

/-- Month abbreviation (1..12). -/
def monthName (m : Nat) : String :=
  match m with
  | 1 => "Jan" | 2 => "Feb" | 3 => "Mar" | 4 => "Apr" | 5 => "May" | 6 => "Jun"
  | 7 => "Jul" | 8 => "Aug" | 9 => "Sep" | 10 => "Oct" | 11 => "Nov" | _ => "Dec"

/-- Full month name (1..12), as produced by
`toLocaleDateString('en-US', { month: 'long' })`. -/
def monthLongName (m : Nat) : String :=
  match m with
  | 1 => "January" | 2 => "February" | 3 => "March" | 4 => "April" | 5 => "May" | 6 => "June"
  | 7 => "July" | 8 => "August" | 9 => "September" | 10 => "October" | 11 => "November"
  | _ => "December"

/-- `Date.prototype.toUTCString`:
`Www, DD Mon YYYY HH:MM:SS GMT` (1970-01-01 was a Thursday). -/
def toUTCString (t : Int) : String :=
  let x := civilOfMs t
  let md := msOfDayUTC t
  weekdayName ((t / 86400000 + 4) % 7).toNat ++ ", " ++ pad2 x.d ++ " " ++
    monthName x.m ++ " " ++ jsNatStr x.y ++ " " ++ pad2 (md / 3600000) ++ ":" ++
    pad2 (md % 3600000 / 60000) ++ ":" ++ pad2 (md % 60000 / 1000) ++ " GMT"

example : toUTCString 0 = "Thu, 01 Jan 1970 00:00:00 GMT" := by decide
example : jsDateParse 0 "2025-12-01" = some 1764547200000 := by decide
example : jsDateParse 60 "2025-12-01T14:00:00" = some (1764597600000 + 3600000) := by decide
example : jsDateParse 0 "Ongoing" = none := by decide
example : hasTimeComponent "2025-12-01T14:00:00" = true := by decide
example : hasTimeComponent "2025-12-01" = false := by decide
example : isoDateTime19 1764597600000 = "2025-12-01T14:00:00" := by decide

/-! ## String utilities shared by the generators -/

/-- One global single-character `String.prototype.replace` pass:
every occurrence of `c` becomes `r` (replacement text is not
rescanned). -/
def replCh (c : Char) (r : List Char) : List Char → List Char
  | [] => []
  | a :: t => (if a = c then r else [a]) ++ replCh c r t

/-- The four escape passes of `escapeICalText`
(`generate_ical.js` lines 68-72): backslash, newline, semicolon,
comma, in source order. -/
def escapeChars (l : List Char) : List Char :=
  replCh ',' ['\\', ','] (replCh ';' ['\\', ';'] (replCh '\n' ['\\', 'n']
    (replCh '\\' ['\\', '\\'] l)))

/-- Per-character description of the combined escape. -/
def escMapChar (c : Char) : List Char :=
  if c = '\\' then ['\\', '\\'] else if c = '\n' then ['\\', 'n']
  else if c = ';' then ['\\', ';'] else if c = ',' then ['\\', ','] else [c]

theorem replCh_append (c : Char) (r x y : List Char) :
    replCh c r (x ++ y) = replCh c r x ++ replCh c r y := by
  induction x with
  | nil => rfl
  | cons a t ih => simp [replCh, ih]

/-- The sequential escape passes act character by character: no pass
rewrites the output of an earlier pass. -/
theorem escapeChars_cons (a : Char) (t : List Char) :
    escapeChars (a :: t) = escMapChar a ++ escapeChars t := by
  show replCh ',' ['\\', ','] (replCh ';' ['\\', ';'] (replCh '\n' ['\\', 'n']
      (replCh '\\' ['\\', '\\'] (a :: t)))) = _
  by_cases h1 : a = '\\'
  · subst h1; simp [replCh, replCh_append, escapeChars, escMapChar]
  · by_cases h2 : a = '\n'
    · subst h2; simp [replCh, replCh_append, escapeChars, escMapChar]
    · by_cases h3 : a = ';'
      · subst h3; simp [replCh, replCh_append, escapeChars, escMapChar]
      · by_cases h4 : a = ','
        · subst h4; simp [replCh, replCh_append, escapeChars, escMapChar]
        · simp [replCh, replCh_append, escapeChars, escMapChar, h1, h2, h3, h4]

/-- The composed escape equals the single character map. -/
theorem escapeChars_eq_map (l : List Char) :
    escapeChars l = (l.map escMapChar).flatten := by
  induction l with
  | nil => rfl
  | cons a t ih => rw [escapeChars_cons, ih]; simp

/-- JS regex `.`: any character except a line terminator. -/
def dotChar (c : Char) : Bool := c != '\n' && c != '\r'

/-- The chunks produced by `escaped.match(/.{1,72}/g)`: maximal runs of
up to 72 non-line-terminator characters, in order; characters that `.`
cannot match are skipped.  Structural recursion on a fuel bound (each
step consumes at least one character, so `l.length` fuel suffices). -/
def chunksDotAux : Nat → List Char → List (List Char)
  | 0, _ => []
  | _ + 1, [] => []
  | fuel + 1, c :: t =>
    if dotChar c then
      ((c :: t).takeWhile dotChar |>.take 72) ::
        chunksDotAux fuel ((c :: t).drop ((c :: t).takeWhile dotChar |>.take 72).length)
    else chunksDotAux fuel t

def chunksDot (l : List Char) : List (List Char) := chunksDotAux l.length l

/-- `escapeICalText` (`generate_ical.js` lines 66-74, identical in
`unnamed/part_002` lines 14-22): escape the four special characters,
then fold the escaped text into chunks of at most 72 characters joined
by CRLF plus one space. -/
def escapeICalText (s : String) : String :=
  if s = "" then ""
  else
    match chunksDot (escapeChars s.data) with
    | [] => ""
    | cs => String.intercalate "\r\n " (cs.map String.mk)

/-- `sanitizeText` (`generate_rss.js` lines 30-38): the five sequential
global replaces (`&`, `<`, `>`, `"`, `'`).  As with `escapeChars`, no
later pass rewrites an earlier pass's output (the only `&` introduced
heads a fresh entity and the `&`-pass runs first), so the composition
acts character by character. -/
def sanMap (c : Char) : List Char :=
  if c = '&' then "&amp;".data else if c = '<' then "&lt;".data
  else if c = '>' then "&gt;".data else if c = '"' then "&quot;".data
  else if c = '\'' then "&#39;".data else [c]

def sanitizeText (s : String) : String := String.mk ((s.data.map sanMap).flatten)

/-- ASCII lowering (model of `String.prototype.toLowerCase` on the
repository's ASCII data). -/
def toLowerStr (s : String) : String := String.mk (s.data.map Char.toLower)

/-- Leading/trailing-whitespace trim (model of
`String.prototype.trim`). -/
def trimStr (s : String) : String :=
  String.mk (((s.data.dropWhile Char.isWhitespace).reverse.dropWhile Char.isWhitespace).reverse)

/-- Head test of one list against another. -/
def startsWithL : List Char → List Char → Bool
  | [], _ => true
  | _ :: _, [] => false
  | p :: ps, c :: cs => p == c && startsWithL ps cs

/-- Suffix following the first occurrence of `pat` (the tail the regex
engine continues with after a match). -/
def findMarker (pat : List Char) : List Char → Option (List Char)
  | [] => if startsWithL pat [] then some [] else none
  | c :: t =>
    if startsWithL pat (c :: t) then some ((c :: t).drop pat.length) else findMarker pat t

/-- Hexadecimal character class `[a-f0-9]`. -/
def isHexChar (c : Char) : Bool := c.isDigit || ('a' ≤ c && c ≤ 'f')

/-- 32-bit rolling hash underlying the digest model. -/
def hashStep (a : Nat) (c : Char) : Nat := (a * 31 + c.toNat) % 4294967296

def hashNat (s : String) : Nat := s.data.foldl hashStep 5381

/-- Hex digit character for `n < 16`. -/
def hexDigit (n : Nat) : Char := if n < 10 then Char.ofNat (48 + n) else Char.ofNat (87 + n)

/-- Model of the MD5 hex digest used for RSS GUIDs and the
`DATA_FINGERPRINT` comment.  The development relies only on the digest
being a deterministic function of its input and on its output alphabet
`[a-f0-9]`; the concrete compression function is a stand-in. -/
def md5Hex (s : String) : String :=
  String.mk [hexDigit (hashNat s / 268435456 % 16), hexDigit (hashNat s / 16777216 % 16),
    hexDigit (hashNat s / 1048576 % 16), hexDigit (hashNat s / 65536 % 16),
    hexDigit (hashNat s / 4096 % 16), hexDigit (hashNat s / 256 % 16),
    hexDigit (hashNat s / 16 % 16), hexDigit (hashNat s % 16)]

/-- Model of `uuid.v5(name, NAMESPACE)` with the fixed namespace of the
generators: a deterministic function of the name.  Only determinism is
used. -/
def uuidV5M (name : String) : String := md5Hex name

/-- JSON string literal rendering (model of `JSON.stringify` on a
string value; only the three escapes our data can need). -/
def jsonEscChar (c : Char) : List Char :=
  if c = '"' then ['\\', '"'] else if c = '\\' then ['\\', '\\']
  else if c = '\n' then ['\\', 'n'] else [c]

def jsonStr (s : String) : String :=
  "\"" ++ String.mk ((s.data.map jsonEscChar).flatten) ++ "\""

/-- JavaScript `x || d` for an optional string (absent, `null` and `""`
are falsy). -/
def jsOr (o : Option String) (d : String) : String :=
  match o with
  | some s => if s = "" then d else s
  | none => d

/-! ## RSS generator (`scripts/generate_rss.js`) -/

def SITE_URL : String := "https://opportunities.internetsociety.org"

def FEED_ITEM_LIMIT : Nat := 100

/-- A raw opportunity record (`data/opportunities.json`).  Field names
map to the JSON keys `"Outreach Activity [Title]"`,
`"Opportunity [Description]"`, `"Link"`, `"Date"`, `"Creation date"`,
`"Type"`, `"Region"`, `"Internet Issue"`, `"Who Can Get Involved"`,
`"Archived"`.  `who` models the already-joined string form of the
possibly-array field. -/
structure RawOpp where
  title : Option String
  description : Option String
  link : Option String
  date : Option String
  creationDate : Option String
  otype : Option String
  region : Option String
  issue : Option String
  who : Option String
  archived : Bool
deriving DecidableEq, Repr

/-- A raw event record (`community-events/data/events.json`). -/
structure RawEvent where
  title : Option String
  description : Option String
  startDate : Option String
  endDate : Option String
  startTime : Option String
  endTime : Option String
  timeZone : Option String
  registrationUrl : Option String
  location : Option String
  etype : Option String
  region : Option String
deriving DecidableEq, Repr

/-- A processed RSS item (`processOpportunities` / `processEvents`
object literals of `generate_rss.js`).  `date` and `creationDate` keep
their raw optional values (an absent property is omitted by
`JSON.stringify`). -/
structure RssItem where
  title : String
  description : String
  link : String
  date : Option String
  rtype : String
  region : String
  creationDate : Option String
  isEvent : Bool
deriving DecidableEq, Repr

/-- `processOpportunities` of `generate_rss.js` (lines 41-52), one
record. -/
def processOppRss (o : RawOpp) : RssItem :=
  ⟨jsOr o.title "Untitled Opportunity", jsOr o.description "", jsOr o.link SITE_URL,
   o.date, jsOr o.otype "", jsOr o.region "", o.creationDate, false⟩

/-- `processEvents` of `generate_rss.js` (lines 55-65), one record
(no `creationDate` property). -/
def processEventRss (e : RawEvent) : RssItem :=
  ⟨jsOr e.title "Untitled Event", jsOr e.description "", jsOr e.registrationUrl SITE_URL,
   e.startDate, jsOr e.etype "", jsOr e.region "", none, true⟩

/-- The date-validity filter of `generateRSSFeed`
(`generate_rss.js` lines 94-106): keep `"Ongoing"`
(case-insensitively) and parseable dates not before `now`. -/
def rssDateOk (off now : Int) (it : RssItem) : Bool :=
  match it.date with
  | none => false
  | some ds =>
    if ds = "" then false
    else if toLowerStr ds = "ongoing" then true
    else
      match jsDateParse off ds with
      | none => false
      | some t => decide (now ≤ t)

/-- Sort key of the creation-date comparator (lines 109-113): a missing
creation date becomes `new Date(0)`.  An unparseable creation date
makes the JS comparator return `NaN`, which `Array.prototype.sort`
treats as "equal"; claims about the order hypothesize parseable
creation dates, where `.getD 0` is never exercised. -/
def rssKey (off : Int) (it : RssItem) : Int :=
  match it.creationDate with
  | none => 0
  | some s => (jsDateParse off s).getD 0

/-- Stable descending insertion: an element goes before the first
element whose key is not larger. -/
def insertDesc (off : Int) (a : RssItem) : List RssItem → List RssItem
  | [] => [a]
  | b :: rest => if rssKey off b ≤ rssKey off a then a :: b :: rest else b :: insertDesc off a rest

/-- The sort `validItems.sort((a, b) => bDate - aDate)`:
`Array.prototype.sort` is stable (ES2019), so it computes the unique
stable descending-by-key permutation, here as insertion sort. -/
def sortDesc (off : Int) : List RssItem → List RssItem
  | [] => []
  | a :: rest => insertDesc off a (sortDesc off rest)

/-- `JSON.stringify` of one processed item (insertion key order;
absent optional properties omitted). -/
def itemJson (it : RssItem) : String :=
  "\x7b" ++ "\"title\":" ++ jsonStr it.title ++ ",\"description\":" ++ jsonStr it.description ++
  ",\"link\":" ++ jsonStr it.link ++
  (match it.date with | some d => ",\"date\":" ++ jsonStr d | none => "") ++
  ",\"type\":" ++ jsonStr it.rtype ++ ",\"region\":" ++ jsonStr it.region ++
  (match it.creationDate with | some c => ",\"creationDate\":" ++ jsonStr c | none => "") ++
  ",\"isEvent\":" ++ (if it.isEvent then "true" else "false") ++ "\x7d"

def itemsJson (l : List RssItem) : String :=
  "[" ++ String.intercalate "," (l.map itemJson) ++ "]"

/-- `pubDate` of one item (line 124): the creation date when present,
otherwise the generation wall-clock `now`. -/
def rssPubDate (off now : Int) (it : RssItem) : String :=
  match it.creationDate with
  | some s =>
    match jsDateParse off s with
    | some t => toUTCString t
    | none => "Invalid Date"
  | none => toUTCString now

/-- One `<item>` element (template literal of lines 132-143, after
`.trim()`; inner indentation as in the source). -/
def renderRssItem (off now : Int) (it : RssItem) : String :=
  "<item>\n                    <title>" ++ sanitizeText it.title ++
  "</title>\n                    <link>" ++ sanitizeText it.link ++
  "</link>\n                    <description>" ++ sanitizeText it.description ++
  "</description>\n                    <pubDate>" ++ rssPubDate off now it ++
  "</pubDate>\n                    <guid isPermaLink=\"false\">" ++ md5Hex (itemJson it) ++
  "</guid>\n                    <category>" ++
  sanitizeText (if it.isEvent then "Event" else "Opportunity") ++
  "</category>\n                    <category>" ++ sanitizeText it.rtype ++
  "</category>\n                    <category>" ++ sanitizeText it.region ++
  "</category>\n                </item>"

/-- The filtered items after the in-place sort (the list over which
both the fingerprint and the feed body are computed). -/
def rssValidSorted (off now : Int) (items : List RssItem) : List RssItem :=
  sortDesc off (items.filter (rssDateOk off now))

/-- The `DATA_FINGERPRINT` value (lines 147-149):
digest of `JSON.stringify(validItems)` after the sort. -/
def rssFingerprint (off now : Int) (items : List RssItem) : String :=
  md5Hex (itemsJson (rssValidSorted off now items))

/-- The capped item list (line 116). -/
def rssLimited (off now : Int) (items : List RssItem) : List RssItem :=
  (rssValidSorted off now items).take FEED_ITEM_LIMIT

/-- Everything of the `generateRSSFeed` document after the fingerprint
comment's closing `-->` (lines 155-165). -/
def rssDocTail (off now : Int) (items : List RssItem)
    (feedTitle feedDescription selfLink : String) : String :=
  "\n<rss version=\"2.0\" xmlns:atom=\"http://www.w3.org/2005/Atom\">\n    <channel>\n        <title>" ++
  feedTitle ++ "</title>\n        <link>" ++ SITE_URL ++ "</link>\n        <description>" ++
  feedDescription ++ "</description>\n        <language>en-us</language>\n        <lastBuildDate>Mon, 01 Jan 2024 00:00:00 GMT</lastBuildDate>\n        <atom:link href=\"" ++
  selfLink ++ "\" rel=\"self\" type=\"application/rss+xml\" />\n        " ++
  String.intercalate "\n" ((rssLimited off now items).map (renderRssItem off now)) ++
  "\n    </channel>\n</rss>"

/-- The complete RSS document of `generateRSSFeed` (lines 152-165,
after `.trim()`), for a processed item list. -/
def rssDoc (off now : Int) (items : List RssItem)
    (feedTitle feedDescription selfLink : String) : String :=
  "<?xml version=\"1.0\" encoding=\"UTF-8\" ?>\n" ++ "<!-- DATA_FINGERPRINT:" ++
  rssFingerprint off now items ++ " -->" ++ rssDocTail off now items feedTitle feedDescription selfLink

/-- The fingerprint-comment marker scanned by `hasContentChanged`
(`generate_rss.js` line 75). -/
def fpMarker : List Char := "<!-- DATA_FINGERPRINT:".data

/-- The regex extraction
`content.match(/<!-- DATA_FINGERPRINT:([a-f0-9]+) -->/)`: the maximal
hex run after the first marker, accepted when followed by `-->`. -/
def extractFingerprint (doc : String) : Option String :=
  match findMarker fpMarker doc.data with
  | none => none
  | some rest =>
    if (rest.takeWhile isHexChar).isEmpty then none
    else if startsWithL " -->".data (rest.drop (rest.takeWhile isHexChar).length) then
      some (String.mk (rest.takeWhile isHexChar))
    else none

/-- `hasContentChanged` of `generate_rss.js` (lines 68-87) on the two
documents' contents: compare extracted fingerprints; missing
fingerprints count as changed. -/
def hasContentChangedRss (oldDoc newDoc : String) : Bool :=
  match extractFingerprint oldDoc, extractFingerprint newDoc with
  | some a, some b => a != b
  | _, _ => true

/-! ## iCal generator (`scripts/generate_ical.js`) -/

/-- The `{ value, isAllDay }` result of `formatDateForICal`. -/
structure ICalDate where
  value : String
  isAllDay : Bool
deriving DecidableEq, Repr

/-- `formatDateForICal` (`generate_ical.js` lines 83-105, identical in
`unnamed/part_002` lines 31-53): empty, `"Ongoing"` and unparseable
strings yield no value; a parseable string without a time component
yields `YYYYMMDD` from the UTC fields and `isAllDay`; otherwise the
basic-format UTC timestamp. -/
def formatDateForICal (off : Int) (s : String) : ICalDate :=
  if s = "" then ⟨"", false⟩
  else if toLowerStr s = "ongoing" then ⟨"", false⟩
  else
    match jsDateParse off s with
    | none => ⟨"", false⟩
    | some t =>
      if hasTimeComponent s = false then ⟨ymd8 (civilOfMs t), true⟩
      else ⟨isoBasicZ t, false⟩

/-- `isValidFutureDate` (`generate_ical.js` lines 116-139): reject
empty, `"Ongoing"` and unparseable strings; otherwise shift both the
event instant and `now` by the host offset, truncate each to local
midnight (`setHours(0,0,0,0)`), and require the event's value to be no
earlier. -/
def isValidFutureDateIcal (off now : Int) (s : String) : Bool :=
  if s = "" then false
  else if toLowerStr s = "ongoing" then false
  else
    match jsDateParse off s with
    | none => false
    | some t =>
      decide (setHours0 off (now - off * 60000) ≤ setHours0 off (t - off * 60000))

/-- A processed event of `processEvents` in `generate_ical.js`
(lines 286-300).  `timeZone` is defaulted to `"UTC"`; no `location`
property is copied, so the generator's `LOCATION` branch never
fires. -/
structure PEvent where
  title : String
  description : String
  startDate : Option String
  endDate : Option String
  startTime : Option String
  endTime : Option String
  timeZone : String
  link : String
  etype : String
  region : String
deriving DecidableEq, Repr

/-- `processEvents` of `generate_ical.js`, one record. -/
def processEventIcal (e : RawEvent) : PEvent :=
  ⟨jsOr e.title "", jsOr e.description "", e.startDate, e.endDate, e.startTime, e.endTime,
   jsOr e.timeZone "UTC", jsOr e.registrationUrl "", jsOr e.etype "", jsOr e.region ""⟩

/-- Truthiness of an optional string property. -/
def optTruthy (o : Option String) : Bool :=
  match o with
  | some s => s ≠ ""
  | none => false

/-- `String.prototype.padStart(5, '0')`. -/
def padStart5 (s : String) : String :=
  if s.length < 5 then String.mk (List.replicate (5 - s.length) '0') ++ s else s

/-- `formatForTZ` (`generate_ical.js` lines 238-242): remove `-` and
`:`; the second regex replace there maps the match to itself. -/
def formatForTZ (s : String) : String :=
  String.mk (s.data.filter (fun c => c != '-' && c != ':'))

/-- Removal of every dash (the JS global dash-replace). -/
def stripDashes (s : String) : String := String.mk (s.data.filter (fun c => c != '-'))

/-- The `DTSTART`/`DTEND` block of one VEVENT of `generateEventsICal`
(`generate_ical.js` lines 236-252): local `TZID` form for timed events
with a truthy timezone, `VALUE=DATE` form for all-day events, bare
(UTC `Z`) form otherwise. -/
def dtBlock (tz startDateStr endDateStr endBase sdRaw : String) (startD endD : ICalDate) :
    String :=
  if tz ≠ "" ∧ startD.isAllDay = false then
    "DTSTART;TZID=" ++ tz ++ ":" ++ formatForTZ startDateStr ++ "\r\n" ++
    "DTEND;TZID=" ++ tz ++ ":" ++
      formatForTZ (if endDateStr ≠ "" then endDateStr else startDateStr) ++ "\r\n"
  else if startD.isAllDay then
    "DTSTART;VALUE=DATE:" ++ stripDashes sdRaw ++ "\r\n" ++
    "DTEND;VALUE=DATE:" ++ stripDashes endBase ++ "\r\n"
  else
    "DTSTART:" ++ startD.value ++ "\r\n" ++
    "DTEND:" ++ (if endD.value ≠ "" then endD.value else startD.value) ++ "\r\n"

/-- One iteration of the `events.forEach` VEVENT builder of
`generateEventsICal` (`generate_ical.js` lines 190-264): `none` when
the event is skipped (missing or unformattable start date) or when the
one-hour-end synthesis calls `toISOString()` on an invalid date, which
throws and is caught by the per-event `try`/`catch`. -/
def eventFragment (off : Int) (e : PEvent) : Option String :=
  if optTruthy e.startDate = false then none
  else
    let sd := e.startDate.getD ""
    let startDateStr :=
      if optTruthy e.startTime then sd ++ "T" ++ padStart5 (e.startTime.getD "") ++ ":00" else sd
    let endBase := if optTruthy e.endDate then e.endDate.getD "" else sd
    let endRes : Option String :=
      if optTruthy e.endTime then some (endBase ++ "T" ++ padStart5 (e.endTime.getD "") ++ ":00")
      else if optTruthy e.startTime then
        match jsDateParse off (sd ++ "T" ++ padStart5 (e.startTime.getD "") ++ ":00") with
        | none => none
        | some t => some (isoDateTime19 (t + 3600000))
      else some endBase
    match endRes with
    | none => none
    | some endDateStr =>
      let startD := formatDateForICal off startDateStr
      let endD := if endDateStr ≠ "" then formatDateForICal off endDateStr else startD
      if startD.value = "" then none
      else
        some ("BEGIN:VEVENT\r\n" ++
          "UID:" ++ uuidV5M (e.title ++ sd ++ e.startTime.getD "") ++ "\r\n" ++
          "DTSTAMP:20240101T000000Z\r\n" ++
          "SUMMARY:" ++ escapeICalText (if e.title = "" then "Untitled Event" else e.title) ++
          "\r\n" ++
          (if e.description ≠ "" ∨ e.link ≠ "" then
            "DESCRIPTION:" ++ escapeICalText e.description ++
              (if e.link ≠ "" then "\nURL:" ++ e.link else "") ++ "\r\n"
           else "") ++
          dtBlock e.timeZone startDateStr endDateStr endBase sd startD endD ++
          "END:VEVENT\r\n")

/-- The per-timezone `VTIMEZONE` block of `generateEventsICal`
(lines 167-186); the same CET/CEST rules are emitted whatever the
identifier. -/
def vtimezoneBlock (tz : String) : String :=
  "BEGIN:VTIMEZONE\r\nTZID:" ++ tz ++ "\r\nX-LIC-LOCATION:" ++ tz ++
  "\r\nBEGIN:STANDARD\r\nDTSTART:19701025T030000\r\nTZOFFSETFROM:+0200\r\nTZOFFSETTO:+0100\r\nTZNAME:CET\r\nEND:STANDARD\r\nBEGIN:DAYLIGHT\r\nDTSTART:19700329T020000\r\nTZOFFSETFROM:+0100\r\nTZOFFSETTO:+0200\r\nTZNAME:CEST\r\nEND:DAYLIGHT\r\nEND:VTIMEZONE\r\n"

/-- `generateEventsICal` (`generate_ical.js` lines 142-269) on
processed events: header, one `VTIMEZONE` per distinct truthy
timezone in first-appearance order (`Set` iteration), then the emitted
`VEVENT` blocks. -/
def generateEventsICal (off : Int) (events : List PEvent) : String :=
  if events.isEmpty then
    "BEGIN:VCALENDAR\r\nVERSION:2.0\r\nPRODID:-//Internet Society//Events//EN\r\nCALSCALE:GREGORIAN\r\nMETHOD:PUBLISH\r\nEND:VCALENDAR"
  else
    "BEGIN:VCALENDAR\r\nVERSION:2.0\r\nPRODID:-//Internet Society//Events//EN\r\nCALSCALE:GREGORIAN\r\nMETHOD:PUBLISH\r\n" ++
    String.join
      (((events.filterMap (fun e => if e.timeZone ≠ "" then some e.timeZone else none)).eraseDups).map
        vtimezoneBlock) ++
    String.join (events.filterMap (eventFragment off)) ++
    "END:VCALENDAR"

/-! ## Opportunities-only iCal generator variant (`unnamed/part_002`) -/

/-- `isValidFutureDate` of `unnamed/part_002` (lines 56-68): note that
here only `today` is truncated to local midnight; the parsed date is
compared untruncated. -/
def p2IsValidFutureDate (off now : Int) (s : String) : Bool :=
  if s = "" then false
  else if toLowerStr (trimStr s) = "ongoing" then false
  else
    match jsDateParse off s with
    | none => false
    | some t => decide (setHours0 off now ≤ t)

/-- The record filter of `unnamed/part_002` (lines 75-78): drop records
without a title, archived records, and records without a valid future
date. -/
def p2Keep (off now : Int) (o : RawOpp) : Bool :=
  optTruthy o.title && !o.archived && optTruthy o.date &&
    p2IsValidFutureDate off now (o.date.getD "")

/-- The `DESCRIPTION` text built by `unnamed/part_002` (lines 90-100).
The JS appends literal `\n` (backslash-n) sequences, i.e. pre-escaped
text.  The possibly-array `"Who Can Get Involved"` is modelled in its
joined string form. -/
def p2Description (o : RawOpp) : String :=
  let d0 := jsOr o.description "No description available."
  let d1 := if optTruthy o.otype then d0 ++ "\\n\\nType: " ++ o.otype.getD "" else d0
  let d2 := if optTruthy o.region then d1 ++ "\\nRegion: " ++ o.region.getD "" else d1
  let d3 := if optTruthy o.issue then d2 ++ "\\nInternet Issue: " ++ o.issue.getD "" else d2
  let d4 := if optTruthy o.who then d3 ++ "\\nWho Can Get Involved: " ++ o.who.getD "" else d3
  if optTruthy o.link then d4 ++ "\\n\\nMore info: " ++ o.link.getD "" else d4

/-- `setUTCDate(getUTCDate() + 1)` on the parsed start date, rendered
`YYYYMMDD` from the UTC fields (`unnamed/part_002` lines 106-111).
ECMAScript `MakeDay` is linear in the day argument, so the update adds
exactly one day to the time value.  On the reachable (all-day) path the
parse always succeeds; an invalid date would render as `NaN` fields in
JS and is returned as `""` here. -/
def p2NextDayStr (off : Int) (s : String) : String :=
  match jsDateParse off s with
  | none => ""
  | some t => ymd8 (civilOfMs (t + 86400000))

/-- One VEVENT of `unnamed/part_002` (lines 80-120): `none` models the
uncaught exception thrown by `toISOString()` when the record's
`"Creation date"` is missing or unparseable (which aborts the whole
generator run). -/
def p2EventString (off : Int) (o : RawOpp) : Option String :=
  match o.creationDate with
  | none => none
  | some cd =>
    match jsDateParse off cd with
    | none => none
    | some ct =>
      let sd := formatDateForICal off (o.date.getD "")
      some ("BEGIN:VEVENT\r\nUID:" ++ uuidV5M (jsOr o.link (jsOr o.title "")) ++
        "\r\nDTSTAMP:" ++ isoBasicZ ct ++ "\r\n" ++
        (if sd.isAllDay then
          "DTSTART;VALUE=DATE:" ++ sd.value ++ "\r\n" ++
          "DTEND;VALUE=DATE:" ++ p2NextDayStr off (o.date.getD "") ++ "\r\n"
         else
          "DTSTART:" ++ sd.value ++ "\r\nDTEND:" ++ sd.value ++ "\r\n") ++
        "SUMMARY:" ++ escapeICalText (o.title.getD "") ++
        "\r\nDESCRIPTION:" ++ escapeICalText (p2Description o) ++
        "\r\nURL:" ++ jsOr o.link SITE_URL ++
        "\r\nSTATUS:CONFIRMED\r\nTRANSP:OPAQUE\r\nEND:VEVENT")

/-- The full document of `unnamed/part_002` (`generateICal`):
`none` when any kept record throws while building its VEVENT. -/
def p2CalendarDoc (off now : Int) (opps : List RawOpp) : Option String :=
  let evs := (opps.filter (p2Keep off now)).map (p2EventString off)
  if evs.any (·.isNone) then none
  else
    let joined := String.intercalate "\r\n" (evs.map (·.getD ""))
    some ("BEGIN:VCALENDAR\r\nVERSION:2.0\r\nPRODID:-//Internet Society//NONSGML Opportunities Calendar//EN\r\nCALSCALE:GREGORIAN\r\nMETHOD:PUBLISH\r\nX-WR-CALNAME:Internet Society Opportunities\r\nX-WR-TIMEZONE:UTC\r\nX-WR-CALDESC:Upcoming opportunities from Internet Society\r\n" ++
      (if joined = "" then "" else joined ++ "\r\n") ++ "END:VCALENDAR")

/-! ## Client-side classifiers (`community-events/js/events.js`) and
client date formatter (`unnamed/part_000`) -/

/-- The per-event keep test of `getFutureEvents`
(`events.js` lines 241-255): events without a start date, with the
exact sentinel `"Ongoing"`, or with an unparseable date (`NaN`
comparisons are false) are kept; otherwise both sides are truncated to
local midnight and past days are dropped. -/
def getFutureKeep (off now : Int) (startDate : Option String) : Bool :=
  match startDate with
  | none => true
  | some sd =>
    if sd = "" then true
    else if sd = "Ongoing" then true
    else
      match jsDateParse off sd with
      | none => true
      | some t => !decide (setHours0 off t < setHours0 off now)

/-- The per-event membership test of `getPastEvents`
(`events.js` lines 258-270). -/
def getPastIn (off now : Int) (startDate : Option String) : Bool :=
  match startDate with
  | none => false
  | some sd =>
    if sd = "" then false
    else if sd = "Ongoing" then false
    else
      match jsDateParse off sd with
      | none => false
      | some t => decide (setHours0 off t < setHours0 off now)

/-- Long-form rendering of the local date fields of a time value, as
`toLocaleDateString('en-US', { year: 'numeric', month: 'long',
day: 'numeric' })` produces. -/
def clientLongDate (off t : Int) : String :=
  let lx := civilOfMs (t - off * 60000)
  monthLongName lx.m ++ " " ++ jsNatStr lx.d ++ ", " ++ jsNatStr lx.y

/-- `formatDate` of `unnamed/part_000` (lines 17-43): a bare
`YYYY-MM-DD` string is parsed through the explicit local
`new Date(year, month - 1, day)` constructor and rendered from the
local fields; other strings go through `new Date(string)`, with the
input returned verbatim when parsing fails.  Bare strings whose
components are out of calendar range are normalized by the JS `Date`
constructor; they are outside the modelled grammar and every claim's
quantification, and the model returns the input string there. -/
def formatDateClient (off : Int) (s : String) : String :=
  match s.data with
  | [y1, y2, y3, y4, '-', m1, m2, '-', d1, d2] =>
    if y1.isDigit && y2.isDigit && y3.isDigit && y4.isDigit &&
        m1.isDigit && m2.isDigit && d1.isDigit && d2.isDigit then
      let y := 1000 * digitVal y1 + 100 * digitVal y2 + 10 * digitVal y3 + digitVal y4
      let m := 10 * digitVal m1 + digitVal m2
      let d := 10 * digitVal d1 + digitVal d2
      if 1 ≤ m ∧ m ≤ 12 ∧ 1 ≤ d ∧ d ≤ daysInMonth y m then
        clientLongDate off (utcMidnightMs ⟨y, m, d⟩ + off * 60000)
      else s
    else
      match jsDateParse off s with
      | none => s
      | some t => clientLongDate off t
  | _ =>
    match jsDateParse off s with
    | none => s
    | some t => clientLongDate off t

/-! ## Supporting lemmas: time values and date-string round trips -/

/-- UTC field access inverts `Date.UTC` for a valid date, also in the
presence of a time-of-day component. -/
theorem civilOfMs_tod (x : Ymd) (hx : validYmd x = true) (tod : Int)
    (h0 : 0 ≤ tod) (ht : tod < 86400000) :
    civilOfMs (utcMidnightMs x + tod) = x ∧ msOfDayUTC (utcMidnightMs x + tod) = tod.toNat := by
  have h1 : (utcMidnightMs x + tod) / 86400000 = (daysFromCivil x : Int) - epochShift := by
    simp only [utcMidnightMs]
    omega
  have h2 : (utcMidnightMs x + tod) % 86400000 = tod := by
    simp only [utcMidnightMs]
    omega
  constructor
  · simp only [civilOfMs, h1, epochShift]
    have h3 : ((daysFromCivil x : Int) - 719528 + 719528).toNat = daysFromCivil x := by omega
    rw [h3]
    exact civilFromDays_daysFromCivil x hx
  · simp only [msOfDayUTC, h2]

/-- Special case: UTC midnight itself. -/
theorem civilOfMs_mid (x : Ymd) (hx : validYmd x = true) :
    civilOfMs (utcMidnightMs x) = x := by
  have h := civilOfMs_tod x hx 0 (by omega) (by omega)
  simpa using h.1

theorem dChar_isDigit : ∀ k, k < 10 → (dChar k).isDigit = true := by decide

theorem digitVal_dChar : ∀ k, k < 10 → digitVal (dChar k) = k := by decide

theorem digitVal_zero : digitVal '0' = 0 := rfl

theorem dChar_ne_dash : ∀ k, k < 10 → ¬(dChar k = '-') := by decide

theorem dChar_ne_colon : ∀ k, k < 10 → ¬(dChar k = ':') := by decide

theorem dChar_beq_colon : ∀ k, k < 10 → (dChar k == ':') = false := by decide

/-- The characters of the bare `YYYY-MM-DD` rendering of a date. -/
def bareChars (x : Ymd) : List Char :=
  [dChar (x.y / 1000 % 10), dChar (x.y / 100 % 10), dChar (x.y / 10 % 10), dChar (x.y % 10),
   '-', dChar (x.m / 10 % 10), dChar (x.m % 10), '-', dChar (x.d / 10 % 10), dChar (x.d % 10)]

/-- The bare `YYYY-MM-DD` string of a date. -/
def bareStr (x : Ymd) : String := String.mk (bareChars x)

/-- An `HH:MM` time string. -/
def hm5 (h mi : Nat) : String :=
  String.mk [dChar (h / 10 % 10), dChar (h % 10), ':', dChar (mi / 10 % 10), dChar (mi % 10)]

example : bareStr ⟨2025, 12, 1⟩ = "2025-12-01" := by decide
example : hm5 14 0 = "14:00" := by decide

theorem digit_recon4 (y : Nat) (h : y ≤ 9999) :
    1000 * (y / 1000 % 10) + 100 * (y / 100 % 10) + 10 * (y / 10 % 10) + y % 10 = y := by omega

theorem digit_recon2 (m : Nat) (h : m ≤ 99) : 10 * (m / 10 % 10) + m % 10 = m := by omega

/-- Parsing the bare rendering of a valid date yields its UTC
midnight, for every host offset. -/
theorem jsDateParse_bareStr (off : Int) (x : Ymd) (hx : validYmd x = true) :
    jsDateParse off (bareStr x) = some (utcMidnightMs x) := by
  obtain ⟨hy1, hy2, hm1, hm2, hd1, hd2, hdim⟩ := validYmd_bounds x hx
  have b1 : x.y / 1000 % 10 < 10 := Nat.mod_lt _ (by norm_num)
  have b2 : x.y / 100 % 10 < 10 := Nat.mod_lt _ (by norm_num)
  have b3 : x.y / 10 % 10 < 10 := Nat.mod_lt _ (by norm_num)
  have b4 : x.y % 10 < 10 := Nat.mod_lt _ (by norm_num)
  have b5 : x.m / 10 % 10 < 10 := Nat.mod_lt _ (by norm_num)
  have b6 : x.m % 10 < 10 := Nat.mod_lt _ (by norm_num)
  have b7 : x.d / 10 % 10 < 10 := Nat.mod_lt _ (by norm_num)
  have b8 : x.d % 10 < 10 := Nat.mod_lt _ (by norm_num)
  show jsDateParseChars off (bareChars x) = _
  simp only [bareChars, jsDateParseChars,
    dChar_isDigit _ b1, dChar_isDigit _ b2, dChar_isDigit _ b3, dChar_isDigit _ b4,
    dChar_isDigit _ b5, dChar_isDigit _ b6, dChar_isDigit _ b7, dChar_isDigit _ b8,
    digitVal_dChar _ b1, digitVal_dChar _ b2, digitVal_dChar _ b3, digitVal_dChar _ b4,
    digitVal_dChar _ b5, digitVal_dChar _ b6, digitVal_dChar _ b7, digitVal_dChar _ b8,
    digit_recon4 x.y hy2, digit_recon2 x.m (by omega), digit_recon2 x.d (by omega)]
  rw [if_pos (by simp)]
  rw [if_pos ⟨hm1, by omega, hd1, by simpa [daysInMonth] using hdim⟩]

/-- Parsing `YYYY-MM-DDTHH:MM:00` (the string the events generator
builds from a bare start date and an `HH:MM` start time) yields the
local time value. -/
theorem jsDateParse_timedStr (off : Int) (x : Ymd) (hx : validYmd x = true)
    (h mi : Nat) (hh : h ≤ 23) (hmi : mi ≤ 59) :
    jsDateParse off (bareStr x ++ "T" ++ hm5 h mi ++ ":00") =
      some (dateTimeMs x h mi 0 + off * 60000) := by
  obtain ⟨hy1, hy2, hm1, hm2, hd1, hd2, hdim⟩ := validYmd_bounds x hx
  have b1 : x.y / 1000 % 10 < 10 := Nat.mod_lt _ (by norm_num)
  have b2 : x.y / 100 % 10 < 10 := Nat.mod_lt _ (by norm_num)
  have b3 : x.y / 10 % 10 < 10 := Nat.mod_lt _ (by norm_num)
  have b4 : x.y % 10 < 10 := Nat.mod_lt _ (by norm_num)
  have b5 : x.m / 10 % 10 < 10 := Nat.mod_lt _ (by norm_num)
  have b6 : x.m % 10 < 10 := Nat.mod_lt _ (by norm_num)
  have b7 : x.d / 10 % 10 < 10 := Nat.mod_lt _ (by norm_num)
  have b8 : x.d % 10 < 10 := Nat.mod_lt _ (by norm_num)
  have c1 : h / 10 % 10 < 10 := Nat.mod_lt _ (by norm_num)
  have c2 : h % 10 < 10 := Nat.mod_lt _ (by norm_num)
  have c3 : mi / 10 % 10 < 10 := Nat.mod_lt _ (by norm_num)
  have c4 : mi % 10 < 10 := Nat.mod_lt _ (by norm_num)
  have hdata : (bareStr x ++ "T" ++ hm5 h mi ++ ":00").data =
      bareChars x ++ 'T' :: [dChar (h / 10 % 10), dChar (h % 10), ':',
        dChar (mi / 10 % 10), dChar (mi % 10)] ++ [':', '0', '0'] := by
    simp [bareStr, hm5, String.data_append]
  show jsDateParseChars off _ = _
  rw [hdata]
  simp only [bareChars, List.cons_append, List.nil_append, jsDateParseChars,
    dChar_isDigit _ b1, dChar_isDigit _ b2, dChar_isDigit _ b3, dChar_isDigit _ b4,
    dChar_isDigit _ b5, dChar_isDigit _ b6, dChar_isDigit _ b7, dChar_isDigit _ b8,
    dChar_isDigit _ c1, dChar_isDigit _ c2, dChar_isDigit _ c3, dChar_isDigit _ c4,
    digitVal_dChar _ b1, digitVal_dChar _ b2, digitVal_dChar _ b3, digitVal_dChar _ b4,
    digitVal_dChar _ b5, digitVal_dChar _ b6, digitVal_dChar _ b7, digitVal_dChar _ b8,
    digitVal_dChar _ c1, digitVal_dChar _ c2, digitVal_dChar _ c3, digitVal_dChar _ c4,
    digit_recon4 x.y hy2, digit_recon2 x.m (by omega), digit_recon2 x.d (by omega),
    digit_recon2 h (by omega), digit_recon2 mi (by omega), digitVal_zero]
  rw [if_pos (by simp)]
  rw [if_pos ⟨hm1, by omega, hd1, by simpa [daysInMonth] using hdim⟩]
  rw [if_pos (by simp)]
  rw [if_pos ⟨hh, hmi, by omega⟩]

/-- The bare rendering has no time-pattern match. -/
theorem hasTime_bare (x : Ymd) : hasTimeComponent (bareStr x) = false := by
  have b1 : x.y / 1000 % 10 < 10 := Nat.mod_lt _ (by norm_num)
  have b2 : x.y / 100 % 10 < 10 := Nat.mod_lt _ (by norm_num)
  have b3 : x.y / 10 % 10 < 10 := Nat.mod_lt _ (by norm_num)
  have b4 : x.y % 10 < 10 := Nat.mod_lt _ (by norm_num)
  have b5 : x.m / 10 % 10 < 10 := Nat.mod_lt _ (by norm_num)
  have b6 : x.m % 10 < 10 := Nat.mod_lt _ (by norm_num)
  have b7 : x.d / 10 % 10 < 10 := Nat.mod_lt _ (by norm_num)
  have b8 : x.d % 10 < 10 := Nat.mod_lt _ (by norm_num)
  have hne : ¬(bareStr x = "") := by
    intro h
    have := congrArg (fun s => s.data.length) h
    simp [bareStr, bareChars] at this
  simp only [hasTimeComponent, if_neg hne]
  show hasTimeChars (bareChars x) = false
  simp only [bareChars, hasTimeChars, timeAt,
    dChar_beq_colon _ b1, dChar_beq_colon _ b2, dChar_beq_colon _ b3, dChar_beq_colon _ b4,
    dChar_beq_colon _ b5, dChar_beq_colon _ b6, dChar_beq_colon _ b7, dChar_beq_colon _ b8]
  simp

/-- The bare rendering is not the `"Ongoing"` sentinel. -/
theorem toLower_bare_ne (x : Ymd) : ¬(toLowerStr (bareStr x) = "ongoing") := by
  intro h
  have := congrArg (fun s => s.data.length) h
  simp [toLowerStr, bareStr, bareChars] at this

/-- `formatDateForICal` on the bare rendering of a valid date: the
`YYYYMMDD` digits of that very date, marked all-day — independently of
the host offset. -/
theorem formatDateForICal_bare (off : Int) (x : Ymd) (hx : validYmd x = true) :
    formatDateForICal off (bareStr x) = ⟨ymd8 x, true⟩ := by
  have hne : bareStr x ≠ "" := by
    intro h
    have := congrArg (fun s => s.data.length) h
    simp [bareStr, bareChars] at this
  simp only [formatDateForICal, if_neg hne, if_neg (toLower_bare_ne x),
    jsDateParse_bareStr off x hx, hasTime_bare x, civilOfMs_mid x hx]
  simp

/-! ## C9: bare-date parsing is offset-independent and exact -/

/-- The client renderer on the bare form of a valid date. -/
theorem formatDateClient_bare (off : Int) (x : Ymd) (hx : validYmd x = true) :
    formatDateClient off (bareStr x) =
      monthLongName x.m ++ " " ++ jsNatStr x.d ++ ", " ++ jsNatStr x.y := by
  obtain ⟨hy1, hy2, hm1, hm2, hd1, hd2, hdim⟩ := validYmd_bounds x hx
  have b1 : x.y / 1000 % 10 < 10 := Nat.mod_lt _ (by norm_num)
  have b2 : x.y / 100 % 10 < 10 := Nat.mod_lt _ (by norm_num)
  have b3 : x.y / 10 % 10 < 10 := Nat.mod_lt _ (by norm_num)
  have b4 : x.y % 10 < 10 := Nat.mod_lt _ (by norm_num)
  have b5 : x.m / 10 % 10 < 10 := Nat.mod_lt _ (by norm_num)
  have b6 : x.m % 10 < 10 := Nat.mod_lt _ (by norm_num)
  have b7 : x.d / 10 % 10 < 10 := Nat.mod_lt _ (by norm_num)
  have b8 : x.d % 10 < 10 := Nat.mod_lt _ (by norm_num)
  show formatDateClient off (String.mk (bareChars x)) = _
  simp only [formatDateClient, bareChars,
    dChar_isDigit _ b1, dChar_isDigit _ b2, dChar_isDigit _ b3, dChar_isDigit _ b4,
    dChar_isDigit _ b5, dChar_isDigit _ b6, dChar_isDigit _ b7, dChar_isDigit _ b8,
    digitVal_dChar _ b1, digitVal_dChar _ b2, digitVal_dChar _ b3, digitVal_dChar _ b4,
    digitVal_dChar _ b5, digitVal_dChar _ b6, digitVal_dChar _ b7, digitVal_dChar _ b8,
    digit_recon4 x.y hy2, digit_recon2 x.m (by omega), digit_recon2 x.d (by omega)]
  rw [if_pos (by simp)]
  rw [if_pos ⟨hm1, by omega, hd1, by simpa [daysInMonth] using hdim⟩]
  have hc : utcMidnightMs x + off * 60000 - off * 60000 = utcMidnightMs x := by ring
  simp only [clientLongDate, hc, civilOfMs_mid x hx]

/-- C9.  For every well-formed bare `YYYY-MM-DD` date string, parsing
yields exactly the year, month and day written: `formatDateForICal`
returns those digits as an all-day value, and the client `formatDate`
renders exactly that calendar date — and both results coincide for any
two host timezone offsets (no UTC shift by the viewer's offset). -/
theorem C9_bare_date_parse_exact (off off2 : Int) (x : Ymd) (hx : validYmd x = true) :
    formatDateForICal off (bareStr x) = ⟨ymd8 x, true⟩ ∧
    formatDateForICal off (bareStr x) = formatDateForICal off2 (bareStr x) ∧
    formatDateClient off (bareStr x) =
      monthLongName x.m ++ " " ++ jsNatStr x.d ++ ", " ++ jsNatStr x.y ∧
    formatDateClient off (bareStr x) = formatDateClient off2 (bareStr x) := by
  refine ⟨formatDateForICal_bare off x hx,
    (formatDateForICal_bare off x hx).trans (formatDateForICal_bare off2 x hx).symm,
    formatDateClient_bare off x hx,
    (formatDateClient_bare off x hx).trans (formatDateClient_bare off2 x hx).symm⟩

/-- Witness for C9 at `2025-12-01`, with host offsets UTC−5 and
UTC+10. -/
theorem C9_bare_date_parse_exact_witness :
    validYmd ⟨2025, 12, 1⟩ = true ∧
    formatDateForICal 300 (bareStr ⟨2025, 12, 1⟩) = ⟨"20251201", true⟩ ∧
    formatDateClient 300 (bareStr ⟨2025, 12, 1⟩) = "December 1, 2025" := by
  have h := C9_bare_date_parse_exact 300 (-600) ⟨2025, 12, 1⟩ (by decide)
  refine ⟨by decide, ?_, ?_⟩
  · rw [h.1]; decide
  · rw [h.2.2.1]; decide

/-! ## C2: all-day DTEND semantics -/

/-- Counterexample to C2 as stated: in the events iCal generator
(`generateEventsICal`), an all-day event dated 2025-12-01 with no end
date yields `DTEND;VALUE=DATE:20251201` — the same day, not the
exclusive next day `20251202` that the claim requires. -/
theorem C2_counterexample :
    ((eventFragment 0 (processEventIcal ⟨some "Community Call", none, some "2025-12-01", none,
        none, none, none, none, none, none, none⟩)).map
      (fun s => ((findMarker "DTSTART;VALUE=DATE:20251201".data s.data).isSome,
                 (findMarker "DTEND;VALUE=DATE:20251201".data s.data).isSome,
                 (findMarker "DTEND;VALUE=DATE:20251202".data s.data).isSome))) =
      some (true, true, false) := by decide

/-- One UTC day past the midnight of a valid date is the midnight of
its calendar successor. -/
theorem utcMidnight_next (x : Ymd) (hx : validYmd x = true) :
    utcMidnightMs x + 86400000 = utcMidnightMs (nextDayYmd x) := by
  simp only [utcMidnightMs, daysFromCivil_nextDay x hx]
  push_cast
  ring

/-- `setUTCDate(getUTCDate() + 1)` lands on the calendar successor. -/
theorem p2NextDayStr_bare (off : Int) (x : Ymd) (hx : validYmd x = true)
    (hnx : validYmd (nextDayYmd x) = true) :
    p2NextDayStr off (bareStr x) = ymd8 (nextDayYmd x) := by
  simp only [p2NextDayStr, jsDateParse_bareStr off x hx, utcMidnight_next x hx,
    civilOfMs_mid (nextDayYmd x) hnx]

/-- C2, amended.  The claim holds of the `unnamed/part_002`
opportunities generator: for every record whose date is the bare
rendering of a valid calendar date, the emitted VEVENT carries
`DTSTART;VALUE=DATE` with that date and `DTEND;VALUE=DATE` with the
calendar day one day later (exclusive end).  (In the events generator
the DTEND equals the start date itself; see the counterexample.) -/
theorem C2_p2_allday_exclusive_end (off : Int) (o : RawOpp) (x : Ymd)
    (hx : validYmd x = true) (hnx : validYmd (nextDayYmd x) = true)
    (hdate : o.date = some (bareStr x)) (cd : String) (ct : Int)
    (hcd : o.creationDate = some cd) (hct : jsDateParse off cd = some ct) :
    p2EventString off o =
      some ("BEGIN:VEVENT\r\nUID:" ++ uuidV5M (jsOr o.link (jsOr o.title "")) ++
        "\r\nDTSTAMP:" ++ isoBasicZ ct ++ "\r\n" ++
        ("DTSTART;VALUE=DATE:" ++ ymd8 x ++ "\r\n" ++
         "DTEND;VALUE=DATE:" ++ ymd8 (nextDayYmd x) ++ "\r\n") ++
        "SUMMARY:" ++ escapeICalText (o.title.getD "") ++
        "\r\nDESCRIPTION:" ++ escapeICalText (p2Description o) ++
        "\r\nURL:" ++ jsOr o.link SITE_URL ++
        "\r\nSTATUS:CONFIRMED\r\nTRANSP:OPAQUE\r\nEND:VEVENT") := by
  simp only [p2EventString, hcd, hct, hdate, Option.getD_some,
    formatDateForICal_bare off x hx, p2NextDayStr_bare off x hx hnx]
  simp

/-- Witness for the amended C2 at the claim's example date
2025-12-01: the exclusive end is 20251202. -/
theorem C2_p2_allday_exclusive_end_witness :
    ymd8 ⟨2025, 12, 1⟩ = "20251201" ∧
    ymd8 (nextDayYmd ⟨2025, 12, 1⟩) = "20251202" ∧
    p2EventString 0 ⟨some "Survey", none, some "https://example.org", some (bareStr ⟨2025, 12, 1⟩),
        some "2024-05-01T00:00:00Z", none, none, none, none, false⟩ =
      some ("BEGIN:VEVENT\r\nUID:" ++
        uuidV5M (jsOr (some "https://example.org") (jsOr (some "Survey") "")) ++
        "\r\nDTSTAMP:" ++ isoBasicZ 1714521600000 ++ "\r\n" ++
        ("DTSTART;VALUE=DATE:" ++ ymd8 ⟨2025, 12, 1⟩ ++ "\r\n" ++
         "DTEND;VALUE=DATE:" ++ ymd8 (nextDayYmd ⟨2025, 12, 1⟩) ++ "\r\n") ++
        "SUMMARY:" ++ escapeICalText ((some "Survey").getD "") ++
        "\r\nDESCRIPTION:" ++
        escapeICalText (p2Description ⟨some "Survey", none, some "https://example.org",
          some (bareStr ⟨2025, 12, 1⟩), some "2024-05-01T00:00:00Z", none, none, none, none,
          false⟩) ++
        "\r\nURL:" ++ jsOr (some "https://example.org") SITE_URL ++
        "\r\nSTATUS:CONFIRMED\r\nTRANSP:OPAQUE\r\nEND:VEVENT") := by
  refine ⟨by decide, by decide, ?_⟩
  exact C2_p2_allday_exclusive_end 0 _ ⟨2025, 12, 1⟩ (by decide) (by decide) rfl
    "2024-05-01T00:00:00Z" 1714521600000 rfl (by decide)

/-! ## C5: one-hour default duration for timed events -/

theorem hasTimeChars_of_drop (l : List Char) (k : Nat) (h : timeAt (List.drop k l) = true) :
    hasTimeChars l = true := by
  induction l generalizing k with
  | nil => rw [List.drop_nil] at h; simp [timeAt] at h
  | cons c t ih =>
    cases k with
    | zero =>
      rw [List.drop_zero] at h
      simp [hasTimeChars, h]
    | succ k2 =>
      rw [List.drop_succ_cons] at h
      simp [hasTimeChars, ih k2 h]

theorem timedStr_ne (x : Ymd) (h mi : Nat) :
    ¬(bareStr x ++ "T" ++ hm5 h mi ++ ":00" = "") := by
  intro hq
  have := congrArg (fun s => s.data.length) hq
  simp [String.data_append, bareStr, hm5, bareChars] at this

theorem toLower_timed_ne (x : Ymd) (h mi : Nat) :
    ¬(toLowerStr (bareStr x ++ "T" ++ hm5 h mi ++ ":00") = "ongoing") := by
  intro hq
  have := congrArg (fun s => s.data.length) hq
  simp [toLowerStr, String.data_append, bareStr, hm5, bareChars] at this

theorem hm5_ne (h mi : Nat) : ¬(hm5 h mi = "") := by
  intro hq
  have := congrArg (fun s => s.data.length) hq
  simp [hm5] at this

theorem isoBasicZ_ne (t : Int) : ¬(isoBasicZ t = "") := by
  intro hq
  have := congrArg String.data hq
  simp [isoBasicZ, String.data_append] at this

theorem isoDateTime19_ne (t : Int) : ¬(isoDateTime19 t = "") := by
  intro hq
  have := congrArg String.data hq
  simp [isoDateTime19, pad2, String.data_append] at this

theorem padStart5_hm5 (h mi : Nat) : padStart5 (hm5 h mi) = hm5 h mi := by
  simp [padStart5, hm5, String.length]

/-- The constructed start string of a timed event carries a time
pattern. -/
theorem hasTime_timed (x : Ymd) (h mi : Nat) (hh : h ≤ 23) (hmi : mi ≤ 59) :
    hasTimeComponent (bareStr x ++ "T" ++ hm5 h mi ++ ":00") = true := by
  have c1 : h / 10 % 10 < 10 := Nat.mod_lt _ (by norm_num)
  have c2 : h % 10 < 10 := Nat.mod_lt _ (by norm_num)
  have c3 : mi / 10 % 10 < 10 := Nat.mod_lt _ (by norm_num)
  have c4 : mi % 10 < 10 := Nat.mod_lt _ (by norm_num)
  simp only [hasTimeComponent, if_neg (timedStr_ne x h mi)]
  apply hasTimeChars_of_drop _ 11
  have hdata : (bareStr x ++ "T" ++ hm5 h mi ++ ":00").data =
      bareChars x ++ 'T' :: [dChar (h / 10 % 10), dChar (h % 10), ':',
        dChar (mi / 10 % 10), dChar (mi % 10)] ++ [':', '0', '0'] := by
    simp [bareStr, hm5, String.data_append]
  rw [hdata]
  simp only [bareChars, List.cons_append, List.nil_append, List.drop_succ_cons, List.drop_zero]
  simp [timeAt, dChar_isDigit _ c1, dChar_isDigit _ c2, dChar_isDigit _ c3, dChar_isDigit _ c4]

/-- `formatDateForICal` on the constructed timed start string. -/
theorem formatDateForICal_timed (x : Ymd) (hx : validYmd x = true) (h mi : Nat)
    (hh : h ≤ 23) (hmi : mi ≤ 59) :
    formatDateForICal 0 (bareStr x ++ "T" ++ hm5 h mi ++ ":00") =
      ⟨isoBasicZ (dateTimeMs x h mi 0), false⟩ := by
  have hp : jsDateParse 0 (bareStr x ++ "T" ++ hm5 h mi ++ ":00") =
      some (dateTimeMs x h mi 0) := by
    have := jsDateParse_timedStr 0 x hx h mi hh hmi
    simpa using this
  simp only [formatDateForICal, if_neg (timedStr_ne x h mi), if_neg (toLower_timed_ne x h mi),
    hp, hasTime_timed x h mi hh hmi]
  simp

/-- C5, amended with the host offset made explicit: on a host running
at UTC (offset 0 — the generators' CI environment), a timed event with
a start time and no end time is emitted with both bounds in local
`TZID` form, and the synthesized `DTEND` is the rendering of the start
instant plus exactly one hour.  (Under a nonzero host offset the code
shifts the synthesized end by that offset; see the counterexample.) -/
theorem C5_events_one_hour_end_utc_host (x : Ymd) (hx : validYmd x = true)
    (h mi : Nat) (hh : h ≤ 23) (hmi : mi ≤ 59) (e : PEvent)
    (hsd : e.startDate = some (bareStr x)) (hst : e.startTime = some (hm5 h mi))
    (het : e.endTime = none) (htz : e.timeZone ≠ "") :
    eventFragment 0 e =
      some ("BEGIN:VEVENT\r\n" ++
        "UID:" ++ uuidV5M (e.title ++ bareStr x ++ hm5 h mi) ++ "\r\n" ++
        "DTSTAMP:20240101T000000Z\r\n" ++
        "SUMMARY:" ++ escapeICalText (if e.title = "" then "Untitled Event" else e.title) ++
        "\r\n" ++
        (if e.description ≠ "" ∨ e.link ≠ "" then
          "DESCRIPTION:" ++ escapeICalText e.description ++
            (if e.link ≠ "" then "\nURL:" ++ e.link else "") ++ "\r\n"
         else "") ++
        ("DTSTART;TZID=" ++ e.timeZone ++ ":" ++
           formatForTZ (bareStr x ++ "T" ++ hm5 h mi ++ ":00") ++ "\r\n" ++
         "DTEND;TZID=" ++ e.timeZone ++ ":" ++
           formatForTZ (isoDateTime19 (dateTimeMs x h mi 0 + 3600000)) ++ "\r\n") ++
        "END:VEVENT\r\n") := by
  have hne : ¬(bareStr x = "") := by
    intro hq
    have := congrArg (fun s => s.data.length) hq
    simp [bareStr, bareChars] at this
  have hS : optTruthy (some (bareStr x)) = true := by simp [optTruthy, hne]
  have hT : optTruthy (some (hm5 h mi)) = true := by simp [optTruthy, hm5_ne h mi]
  have hp : jsDateParse 0 (bareStr x ++ "T" ++ hm5 h mi ++ ":00") =
      some (dateTimeMs x h mi 0) := by
    have := jsDateParse_timedStr 0 x hx h mi hh hmi
    simpa using this
  simp only [eventFragment, hsd, hst, het, Option.getD_some, padStart5_hm5, hS, hT, hp]
  simp [formatDateForICal_timed x hx h mi hh hmi, isoDateTime19_ne, isoBasicZ_ne, htz,
    optTruthy, dtBlock]

/-- Counterexample to the unconditional reading of C5: with host
offset UTC−5 (offset 300) the synthesized end of a 14:00 CET event is
rendered 20:00, not the claimed 15:00. -/
theorem C5_counterexample :
    ((eventFragment 300 (processEventIcal ⟨some "Webinar", none, some "2025-12-01", none,
        some "14:00", none, some "CET", none, none, none, none⟩)).map
      (fun s => ((findMarker "DTSTART;TZID=CET:20251201T140000".data s.data).isSome,
                 (findMarker "DTEND;TZID=CET:20251201T150000".data s.data).isSome,
                 (findMarker "DTEND;TZID=CET:20251201T200000".data s.data).isSome))) =
      some (true, false, true) := by decide

/-- Witness for the amended C5 at the claim's example (2025-12-01,
14:00, CET): `DTSTART;TZID=CET:20251201T140000` and
`DTEND;TZID=CET:20251201T150000`. -/
theorem C5_events_one_hour_end_utc_host_witness :
    formatForTZ (bareStr ⟨2025, 12, 1⟩ ++ "T" ++ hm5 14 0 ++ ":00") = "20251201T140000" ∧
    formatForTZ (isoDateTime19 (dateTimeMs ⟨2025, 12, 1⟩ 14 0 0 + 3600000)) =
      "20251201T150000" ∧
    eventFragment 0 (processEventIcal ⟨some "Webinar", none, some (bareStr ⟨2025, 12, 1⟩), none,
        some (hm5 14 0), none, some "CET", none, none, none, none⟩) =
      some ("BEGIN:VEVENT\r\n" ++
        "UID:" ++ uuidV5M ("Webinar" ++ bareStr ⟨2025, 12, 1⟩ ++ hm5 14 0) ++ "\r\n" ++
        "DTSTAMP:20240101T000000Z\r\n" ++
        "SUMMARY:" ++ escapeICalText (if ("Webinar" : String) = "" then "Untitled Event"
          else "Webinar") ++ "\r\n" ++
        (if ("" : String) ≠ "" ∨ ("" : String) ≠ "" then
          "DESCRIPTION:" ++ escapeICalText "" ++
            (if ("" : String) ≠ "" then "\nURL:" ++ "" else "") ++ "\r\n"
         else "") ++
        ("DTSTART;TZID=" ++ "CET" ++ ":" ++
           formatForTZ (bareStr ⟨2025, 12, 1⟩ ++ "T" ++ hm5 14 0 ++ ":00") ++ "\r\n" ++
         "DTEND;TZID=" ++ "CET" ++ ":" ++
           formatForTZ (isoDateTime19 (dateTimeMs ⟨2025, 12, 1⟩ 14 0 0 + 3600000)) ++ "\r\n") ++
        "END:VEVENT\r\n") := by
  refine ⟨by decide, by decide, ?_⟩
  exact C5_events_one_hour_end_utc_host ⟨2025, 12, 1⟩ (by decide) 14 0 (by norm_num)
    (by norm_num) _ rfl rfl rfl (by decide)

/-! ## C8: "today" classification under host offsets -/

/-- C8 fails on the code: with host offset UTC−5 (`off = 300`) at
17:00 UTC (= local noon) on 2025-12-01, the host's current local
calendar day is 2025-12-01, yet both `isValidFutureDate` of
`generate_ical.js` and `getFutureEvents` of `events.js` classify an
event dated `2025-12-01` as past and drop it.  A bare date parses as
UTC midnight while "today" is local, so the claimed "never Past for
any host offset" does not hold; with offset 0 the same instant keeps
the event. -/
theorem C8_today_event_classified_past :
    civilOfMs (1764608400000 - 300 * 60000) = ⟨2025, 12, 1⟩ ∧
    jsDateParse 300 "2025-12-01" = some (utcMidnightMs ⟨2025, 12, 1⟩) ∧
    isValidFutureDateIcal 300 1764608400000 "2025-12-01" = false ∧
    getFutureKeep 300 1764608400000 (some "2025-12-01") = false ∧
    getPastIn 300 1764608400000 (some "2025-12-01") = true ∧
    isValidFutureDateIcal 0 1764608400000 "2025-12-01" = true ∧
    getFutureKeep 0 1764608400000 (some "2025-12-01") = true := by decide

/-! ## C10: timed events always carry a TZID -/

theorem jsOr_ne_empty (o : Option String) (d : String) (hd : d ≠ "") : jsOr o d ≠ "" := by
  cases o with
  | none => simpa [jsOr] using hd
  | some s =>
    by_cases hc : s = ""
    · simpa [jsOr, hc] using hd
    · simpa [jsOr, hc] using hc

/-- Every emitted VEVENT's date bounds go through `dtBlock`. -/
theorem eventFragment_dtBlock (off : Int) (p : PEvent) :
    eventFragment off p = none ∨
    ∃ pre s1 s2 s3 s4 d1 d2, eventFragment off p =
      some (pre ++ dtBlock p.timeZone s1 s2 s3 s4 d1 d2 ++ "END:VEVENT\r\n") := by
  simp only [eventFragment]
  repeat' split
  all_goals first
    | exact Or.inl rfl
    | exact Or.inr ⟨_, _, _, _, _, _, _, rfl⟩

/-- With a non-empty timezone, `dtBlock` emits the `TZID` form exactly
when the event is timed and the `VALUE=DATE` form exactly when it is
all-day; the bare form is unreachable. -/
theorem dtBlock_shape (tz s1 s2 s3 s4 : String) (d1 d2 : ICalDate) (htz : tz ≠ "") :
    (d1.isAllDay = false →
      ∃ a b, dtBlock tz s1 s2 s3 s4 d1 d2 =
        "DTSTART;TZID=" ++ tz ++ ":" ++ a ++ "\r\n" ++
        "DTEND;TZID=" ++ tz ++ ":" ++ b ++ "\r\n") ∧
    (d1.isAllDay = true →
      ∃ a b, dtBlock tz s1 s2 s3 s4 d1 d2 =
        "DTSTART;VALUE=DATE:" ++ a ++ "\r\n" ++ "DTEND;VALUE=DATE:" ++ b ++ "\r\n") := by
  constructor
  · intro hA
    rw [dtBlock, if_pos ⟨htz, hA⟩]
    exact ⟨_, _, rfl⟩
  · intro hA
    rw [dtBlock, if_neg (by simp [hA]), if_pos hA]
    exact ⟨_, _, rfl⟩

/-- C10.  Every record processed by `processEvents` of
`generate_ical.js` carries a non-empty `timeZone` (missing values
default to `"UTC"`); every emitted VEVENT's date bounds come from
`dtBlock`, which under a non-empty timezone emits `TZID` on both
`DTSTART` and `DTEND` for every timed (non-all-day) event and the
`VALUE=DATE` form for all-day events — the bare UTC `Z` form is never
emitted for a processed (hence timezone-carrying) event record. -/
theorem C10_events_timed_tzid :
    (∀ e : RawEvent, (processEventIcal e).timeZone ≠ "") ∧
    (∀ (e : RawEvent) (off : Int),
      eventFragment off (processEventIcal e) = none ∨
      ∃ pre s1 s2 s3 s4 d1 d2, eventFragment off (processEventIcal e) =
        some (pre ++ dtBlock (processEventIcal e).timeZone s1 s2 s3 s4 d1 d2 ++
          "END:VEVENT\r\n")) ∧
    (∀ (e : RawEvent) (s1 s2 s3 s4 : String) (d1 d2 : ICalDate), d1.isAllDay = false →
      ∃ a b, dtBlock (processEventIcal e).timeZone s1 s2 s3 s4 d1 d2 =
        "DTSTART;TZID=" ++ (processEventIcal e).timeZone ++ ":" ++ a ++ "\r\n" ++
        "DTEND;TZID=" ++ (processEventIcal e).timeZone ++ ":" ++ b ++ "\r\n") := by
  have htz : ∀ e : RawEvent, (processEventIcal e).timeZone ≠ "" := fun e =>
    jsOr_ne_empty e.timeZone "UTC" (by decide)
  refine ⟨htz, fun e off => eventFragment_dtBlock off (processEventIcal e), ?_⟩
  intro e s1 s2 s3 s4 d1 d2 hA
  exact (dtBlock_shape _ s1 s2 s3 s4 d1 d2 (htz e)).1 hA

/-! ## C6: item cap and creation-date ordering of the RSS feed -/

/-- Descending insertion produces a permutation of consing. -/
theorem insertDesc_perm (off : Int) (a : RssItem) (l : List RssItem) :
    (insertDesc off a l).Perm (a :: l) := by
  induction l with
  | nil => exact List.Perm.refl _
  | cons b t ih =>
    simp only [insertDesc]
    split
    · exact List.Perm.refl _
    · exact (ih.cons b).trans (List.Perm.swap a b t)

/-- The sort is a permutation of its input. -/
theorem sortDesc_perm (off : Int) (l : List RssItem) : (sortDesc off l).Perm l := by
  induction l with
  | nil => exact List.Perm.refl _
  | cons a t ih =>
    exact (insertDesc_perm off a (sortDesc off t)).trans (ih.cons a)

/-- Descending insertion preserves descending key order. -/
theorem insertDesc_pairwise (off : Int) (a : RssItem) (l : List RssItem)
    (h : l.Pairwise (fun x y => rssKey off y ≤ rssKey off x)) :
    (insertDesc off a l).Pairwise (fun x y => rssKey off y ≤ rssKey off x) := by
  induction l with
  | nil => simp [insertDesc]
  | cons b t ih =>
    rw [List.pairwise_cons] at h
    obtain ⟨hb, ht⟩ := h
    simp only [insertDesc]
    split
    · rename_i hle
      rw [List.pairwise_cons]
      refine ⟨?_, List.pairwise_cons.mpr ⟨hb, ht⟩⟩
      intro x hx
      rcases List.mem_cons.mp hx with hxb | hxt
      · subst hxb; exact hle
      · exact le_trans (hb x hxt) hle
    · rename_i hgt
      rw [List.pairwise_cons]
      refine ⟨?_, ih ht⟩
      intro x hx
      have hx2 : x ∈ a :: t := (insertDesc_perm off a t).mem_iff.mp hx
      rcases List.mem_cons.mp hx2 with hxa | hxt
      · subst hxa; omega
      · exact hb x hxt

/-- The sorted list is in descending key order. -/
theorem sortDesc_pairwise (off : Int) (l : List RssItem) :
    (sortDesc off l).Pairwise (fun x y => rssKey off y ≤ rssKey off x) := by
  induction l with
  | nil => simp [sortDesc]
  | cons a t ih => exact insertDesc_pairwise off a (sortDesc off t) ih

/-- A descending list dominates its own dropped suffix. -/
theorem pairwise_take_drop (off : Int) (l : List RssItem) (n : Nat)
    (h : l.Pairwise (fun x y => rssKey off y ≤ rssKey off x)) :
    ∀ a ∈ l.take n, ∀ b ∈ l.drop n, rssKey off b ≤ rssKey off a := by
  have hsplit := List.take_append_drop n l
  rw [← hsplit] at h
  exact (List.pairwise_append.mp h).2.2

/-- C6.  The feed body renders at most `FEED_ITEM_LIMIT = 100` items:
the capped list is the 100-prefix of the filtered list sorted by
creation-date key, the sort is a permutation of the filtered list in
descending key order (newest first, stable), and every retained item's
key is at least every dropped item's key — so when more than 100
records pass the filter, the 100 kept are exactly those with the most
recent creation dates. -/
theorem C6_rss_item_cap (off now : Int) (items : List RssItem) :
    (rssLimited off now items).length ≤ FEED_ITEM_LIMIT ∧
    rssLimited off now items = (rssValidSorted off now items).take FEED_ITEM_LIMIT ∧
    (rssValidSorted off now items).Perm (items.filter (rssDateOk off now)) ∧
    (rssValidSorted off now items).Pairwise (fun a b => rssKey off b ≤ rssKey off a) ∧
    (∀ a ∈ rssLimited off now items,
      ∀ b ∈ (rssValidSorted off now items).drop FEED_ITEM_LIMIT,
        rssKey off b ≤ rssKey off a) := by
  refine ⟨List.length_take_le _ _, rfl, sortDesc_perm off _, sortDesc_pairwise off _, ?_⟩
  exact pairwise_take_drop off _ FEED_ITEM_LIMIT (sortDesc_pairwise off _)

/-! ## C4: archived and untitled records -/

/-- Counterexample to C4 as stated: an archived, untitled record with a
valid future date passes the RSS date filter of `generate_rss.js`
(which never consults the archived flag or the title), stays in the
capped item list, and its rendered `<item>` (titled by the
`"Untitled Opportunity"` default) appears in the generated RSS
document. -/
theorem C4_counterexample :
    (⟨none, some "Desc", none, some "2099-01-01", some "2024-01-01T00:00:00Z", none, none,
        none, none, true⟩ : RawOpp).archived = true ∧
    rssDateOk 0 1764608400000 (processOppRss ⟨none, some "Desc", none, some "2099-01-01",
        some "2024-01-01T00:00:00Z", none, none, none, none, true⟩) = true ∧
    rssLimited 0 1764608400000 [processOppRss ⟨none, some "Desc", none, some "2099-01-01",
        some "2024-01-01T00:00:00Z", none, none, none, none, true⟩] =
      [processOppRss ⟨none, some "Desc", none, some "2099-01-01",
        some "2024-01-01T00:00:00Z", none, none, none, none, true⟩] ∧
    (findMarker "<title>Untitled Opportunity</title>".data
      (rssDoc 0 1764608400000 [processOppRss ⟨none, some "Desc", none, some "2099-01-01",
        some "2024-01-01T00:00:00Z", none, none, none, none, true⟩] "T" "D" "L").data).isSome
      = true := by
  set_option maxRecDepth 8192 in decide

/-- C4, amended.  The claim holds of the `unnamed/part_002` generator:
its record filter drops every archived record and every record without
a truthy title, so every record that reaches VEVENT emission is
unarchived and titled. -/
theorem C4_p2_archived_untitled_excluded (off now : Int) (opps : List RawOpp) (o : RawOpp)
    (ho : o ∈ opps.filter (p2Keep off now)) :
    o.archived = false ∧ optTruthy o.title = true := by
  have h := (List.mem_filter.mp ho).2
  simp only [p2Keep, Bool.and_eq_true, Bool.not_eq_true'] at h
  exact ⟨h.1.1.2, h.1.1.1⟩

/-- Witness for the amended C4: a titled, unarchived record with a
future date is kept by the `unnamed/part_002` filter. -/
theorem C4_p2_archived_untitled_excluded_witness :
    (⟨some "Clean", none, none, some "2099-01-01", none, none, none, none, none, false⟩ :
      RawOpp).archived = false ∧
    optTruthy (⟨some "Clean", none, none, some "2099-01-01", none, none, none, none, none,
      false⟩ : RawOpp).title = true :=
  C4_p2_archived_untitled_excluded 0 0
    [⟨some "Clean", none, none, some "2099-01-01", none, none, none, none, none, false⟩]
    ⟨some "Clean", none, none, some "2099-01-01", none, none, none, none, none, false⟩
    (by decide)

/-! ## C3: the `"Ongoing"` sentinel -/

/-- A string lowering to `"ongoing"` has seven characters. -/
theorem ongoing_len (s : String) (hs : toLowerStr s = "ongoing") : s.data.length = 7 := by
  have hd : s.data.map Char.toLower = "ongoing".data := congrArg String.data hs
  have := congrArg List.length hd
  simpa using this

/-- Shape of a case-insensitive `"Ongoing"` string: seven characters,
the fifth lowering to `'i'`. -/
theorem ongoing_shape (s : String) (hs : toLowerStr s = "ongoing") :
    ∃ c0 c1 c2 c3 c4 c5 c6 : Char,
      s.data = [c0, c1, c2, c3, c4, c5, c6] ∧ c4.toLower = 'i' := by
  have hd : s.data.map Char.toLower = "ongoing".data := congrArg String.data hs
  have hlen := ongoing_len s hs
  match hsd : s.data with
  | [c0, c1, c2, c3, c4, c5, c6] =>
    refine ⟨c0, c1, c2, c3, c4, c5, c6, rfl, ?_⟩
    rw [hsd] at hd
    have hogd : ("ongoing" : String).data = ['o', 'n', 'g', 'o', 'i', 'n', 'g'] := rfl
    rw [hogd] at hd
    simp only [List.map_cons, List.map_nil, List.cons.injEq, and_true] at hd
    exact hd.2.2.2.2.1
  | [] => rw [hsd] at hlen; simp at hlen
  | [a] => rw [hsd] at hlen; simp at hlen
  | [a, b] => rw [hsd] at hlen; simp at hlen
  | [a, b, c] => rw [hsd] at hlen; simp at hlen
  | [a, b, c, d] => rw [hsd] at hlen; simp at hlen
  | [a, b, c, d, e] => rw [hsd] at hlen; simp at hlen
  | [a, b, c, d, e, f] => rw [hsd] at hlen; simp at hlen
  | a :: b :: c :: d :: e :: f :: g :: h :: t => rw [hsd] at hlen; simp at hlen

/-- No extension of a case-insensitive `"Ongoing"` string parses as a
date: its fifth character is not the `-` the grammar requires there. -/
theorem jsDateParseChars_ongoing_append (off : Int) (s : String)
    (hs : toLowerStr s = "ongoing") (l : List Char) :
    jsDateParseChars off (s.data ++ l) = none := by
  obtain ⟨c0, c1, c2, c3, c4, c5, c6, hsd, hc4⟩ := ongoing_shape s hs
  have hc4' : ¬(c4 = '-') := by
    intro h
    subst h
    exact absurd hc4 (by decide)
  rw [hsd]
  match l with
  | [] => simp [jsDateParseChars]
  | [a] => simp [jsDateParseChars]
  | [a, b] => simp [jsDateParseChars]
  | [a, b, c] =>
    simp only [List.cons_append, List.nil_append, jsDateParseChars]
    rw [if_neg (fun h => hc4' h.1)]
  | a :: b :: c :: d :: rest =>
    simp only [List.cons_append, List.nil_append, jsDateParseChars]
    rw [if_neg (fun h => hc4' h.1)]

/-- A case-insensitive `"Ongoing"` string yields an invalid date. -/
theorem jsDateParse_ongoing (off : Int) (s : String) (hs : toLowerStr s = "ongoing") :
    jsDateParse off s = none := by
  have h := jsDateParseChars_ongoing_append off s hs []
  simpa [jsDateParse] using h

theorem ongoing_ne_empty (s : String) (hs : toLowerStr s = "ongoing") : s ≠ "" := by
  intro h
  have := ongoing_len s hs
  rw [h] at this
  simp at this

/-- `formatDateForICal` returns the empty marker whenever parsing
fails. -/
theorem formatDateForICal_parse_none (off : Int) (s : String)
    (h : jsDateParse off s = none) : formatDateForICal off s = ⟨"", false⟩ := by
  simp only [formatDateForICal, h]
  split_ifs <;> rfl

/-- C3.  For a record whose start date equals `"Ongoing"`
case-insensitively: the events iCal serializer emits no VEVENT (the
start never formats), the RSS date filter keeps the record, and the
client Past classifier never places it in the past bucket — for every
host offset and every `now`. -/
theorem C3_ongoing_never_past (off now : Int) (s : String) (hs : toLowerStr s = "ongoing") :
    (∀ p : PEvent, p.startDate = some s → eventFragment off p = none) ∧
    (∀ it : RssItem, it.date = some s → rssDateOk off now it = true) ∧
    getPastIn off now (some s) = false := by
  have hne : s ≠ "" := ongoing_ne_empty s hs
  have hparse : jsDateParse off s = none := jsDateParse_ongoing off s hs
  refine ⟨?_, ?_, ?_⟩
  · intro p hsd
    have hS : optTruthy p.startDate = true := by rw [hsd]; simpa [optTruthy] using hne
    have hfmt0 : formatDateForICal off s = ⟨"", false⟩ :=
      formatDateForICal_parse_none off s hparse
    have hpt : ∀ st : String, jsDateParse off (s ++ "T" ++ padStart5 st ++ ":00") = none := by
      intro st
      show jsDateParseChars off (s ++ "T" ++ padStart5 st ++ ":00").data = none
      have hd : (s ++ "T" ++ padStart5 st ++ ":00").data =
          s.data ++ ("T".data ++ ((padStart5 st).data ++ ":00".data)) := by
        simp [String.data_append]
      rw [hd]
      exact jsDateParseChars_ongoing_append off s hs _
    have hfmtT : ∀ st : String,
        formatDateForICal off (s ++ "T" ++ padStart5 st ++ ":00") = ⟨"", false⟩ := fun st =>
      formatDateForICal_parse_none off _ (hpt st)
    by_cases hst : optTruthy p.startTime = true
    · by_cases het : optTruthy p.endTime = true
      · simp [eventFragment, hsd, hS, hst, het, hfmtT]
      · have het' : optTruthy p.endTime = false := by
          revert het; cases optTruthy p.endTime <;> simp
        simp [eventFragment, hsd, hS, hst, het', hpt]
    · have hst' : optTruthy p.startTime = false := by
        revert hst; cases optTruthy p.startTime <;> simp
      by_cases het : optTruthy p.endTime = true
      · simp [eventFragment, hsd, hS, hst', het, hfmt0]
      · have het' : optTruthy p.endTime = false := by
          revert het; cases optTruthy p.endTime <;> simp
        simp [eventFragment, hsd, hS, hst', het', hfmt0]
  · intro it hdt
    simp [rssDateOk, hdt, hne, hs]
  · by_cases hOg : s = "Ongoing"
    · simp [getPastIn, hOg]
    · simp [getPastIn, hne, hOg, hparse]

/-- Witness for C3 at the sentinel `"Ongoing"` itself. -/
theorem C3_ongoing_never_past_witness :
    eventFragment 0 ⟨"Event", "", some "Ongoing", none, none, none, "UTC", "", "", ""⟩ = none ∧
    rssDateOk 0 1764608400000 ⟨"T", "D", "L", some "Ongoing", "", "", none, false⟩ = true ∧
    getPastIn 0 1764608400000 (some "Ongoing") = false := by
  have h := C3_ongoing_never_past 0 1764608400000 "Ongoing" (by decide)
  exact ⟨h.1 _ rfl, h.2.1 _ rfl, h.2.2⟩

/-! ## C7: escape-then-fold of iCal text -/

/-- On terminator-free input, the folding chunks partition the list into
runs of 1 to 72 characters. -/
theorem chunksDotAux_clean (fuel : Nat) (l : List Char)
    (hall : ∀ c ∈ l, dotChar c = true) (hf : l.length ≤ fuel) :
    (chunksDotAux fuel l).flatten = l ∧
      ∀ ck ∈ chunksDotAux fuel l, 1 ≤ ck.length ∧ ck.length ≤ 72 := by
  induction fuel generalizing l with
  | zero =>
    have : l = [] := List.length_eq_zero.mp (Nat.le_zero.mp hf)
    subst this
    simp [chunksDotAux]
  | succ fuel ih =>
    match l with
    | [] => simp [chunksDotAux]
    | c :: t =>
      have hc : dotChar c = true := hall c (List.mem_cons_self c t)
      have htw : (c :: t).takeWhile dotChar = c :: t := by
        rw [List.takeWhile_eq_self_iff]
        exact hall
      rw [chunksDotAux, if_pos hc, htw]
      have hlen : ((c :: t).take 72).length = min 72 (c :: t).length := List.length_take 72 _
      have hdrop : (c :: t).drop (min 72 (c :: t).length) = (c :: t).drop 72 := by
        rcases Nat.le_total (c :: t).length 72 with hle | hge
        · rw [Nat.min_eq_right hle, List.drop_length, List.drop_eq_nil_of_le hle]
        · rw [Nat.min_eq_left hge]
      rw [hlen, hdrop]
      have hall2 : ∀ x ∈ (c :: t).drop 72, dotChar x = true := fun x hx =>
        hall x (List.mem_of_mem_drop hx)
      have hf2 : ((c :: t).drop 72).length ≤ fuel := by
        rw [List.length_drop]
        simp only [List.length_cons] at hf ⊢
        omega
      obtain ⟨ihf, ihb⟩ := ih ((c :: t).drop 72) hall2 hf2
      constructor
      · rw [List.flatten_cons, ihf, List.take_append_drop]
      · intro ck hck
        rcases List.mem_cons.mp hck with hhd | htl
        · subst hhd
          constructor
          · rw [hlen]
            simp only [List.length_cons]
            omega
          · rw [hlen]
            omega
        · exact ihb ck htl

theorem chunksDot_clean (l : List Char) (hall : ∀ c ∈ l, dotChar c = true) :
    (chunksDot l).flatten = l ∧ ∀ ck ∈ chunksDot l, 1 ≤ ck.length ∧ ck.length ≤ 72 :=
  chunksDotAux_clean l.length l hall (le_refl _)

/-- The escape map never emits a line terminator when fed a
non-carriage-return character. -/
theorem escMapChar_dot (c : Char) (hc : c ≠ '\r') :
    ∀ d ∈ escMapChar c, dotChar d = true := by
  intro d hd
  by_cases h1 : c = '\\'
  · subst h1
    exact (by decide : ∀ x ∈ escMapChar '\\', dotChar x = true) d hd
  · by_cases h2 : c = '\n'
    · subst h2
      exact (by decide : ∀ x ∈ escMapChar '\n', dotChar x = true) d hd
    · by_cases h3 : c = ';'
      · subst h3
        exact (by decide : ∀ x ∈ escMapChar ';', dotChar x = true) d hd
      · by_cases h4 : c = ','
        · subst h4
          exact (by decide : ∀ x ∈ escMapChar ',', dotChar x = true) d hd
        · simp only [escMapChar, if_neg h1, if_neg h2, if_neg h3, if_neg h4,
            List.mem_singleton] at hd
          subst hd
          simp [dotChar, h2, hc]

/-- The escaped form of carriage-return-free input is
terminator-free. -/
theorem escapeChars_dot (l : List Char) (hr : '\r' ∉ l) :
    ∀ d ∈ escapeChars l, dotChar d = true := by
  intro d hd
  rw [escapeChars_eq_map] at hd
  obtain ⟨x, hx, hdx⟩ := List.mem_flatten.mp hd
  obtain ⟨c, hc, hcx⟩ := List.mem_map.mp hx
  subst hcx
  exact escMapChar_dot c (fun hce => hr (hce ▸ hc)) d hdx

/-- The fold step of `escapeICalText` on nonempty input. -/
theorem escapeICalText_eq (s : String) (hne : s ≠ "") :
    escapeICalText s =
      String.intercalate "\r\n " ((chunksDot (escapeChars s.data)).map String.mk) := by
  simp only [escapeICalText, if_neg hne]
  match h : chunksDot (escapeChars s.data) with
  | [] => rfl
  | c :: cs => simp

/-- C7.  `escapeICalText` first replaces backslash, newline, semicolon
and comma by their RFC 5545 escapes — acting character by character on
the input — and then folds the already-escaped text: for
carriage-return-free input the chunks partition the escaped character
list into runs of 1 to 72 characters, joined by CRLF plus exactly one
space. -/
theorem C7_escape_then_fold (s : String) (hr : '\r' ∉ s.data) (hne : s ≠ "") :
    escapeChars s.data = (s.data.map escMapChar).flatten ∧
    escMapChar '\\' = ['\\', '\\'] ∧ escMapChar '\n' = ['\\', 'n'] ∧
    escMapChar ';' = ['\\', ';'] ∧ escMapChar ',' = ['\\', ','] ∧
    (∀ c : Char, c ≠ '\\' → c ≠ '\n' → c ≠ ';' → c ≠ ',' → escMapChar c = [c]) ∧
    (chunksDot (escapeChars s.data)).flatten = escapeChars s.data ∧
    (∀ ck ∈ chunksDot (escapeChars s.data), 1 ≤ ck.length ∧ ck.length ≤ 72) ∧
    escapeICalText s =
      String.intercalate "\r\n " ((chunksDot (escapeChars s.data)).map String.mk) := by
  have hdot := escapeChars_dot s.data hr
  obtain ⟨hflat, hbnd⟩ := chunksDot_clean (escapeChars s.data) hdot
  refine ⟨escapeChars_eq_map s.data, rfl, rfl, rfl, rfl, ?_, hflat, hbnd,
    escapeICalText_eq s hne⟩
  intro c h1 h2 h3 h4
  simp [escMapChar, h1, h2, h3, h4]

/-- Witness for C7 at the claim's example: `"A; B, C"`, a newline and
`"D"` escape to `A\; B\, C\` + `nD` (backslash-n), one unfolded
chunk. -/
theorem C7_escape_then_fold_witness :
    ('\r' ∉ ("A; B, C\nD" : String).data) ∧
    escapeICalText "A; B, C\nD" = "A\\; B\\, C\\nD" ∧
    escapeICalText "A; B, C\nD" =
      String.intercalate "\r\n "
        ((chunksDot (escapeChars ("A; B, C\nD" : String).data)).map String.mk) := by
  have h := C7_escape_then_fold "A; B, C\nD" (by decide) (by decide)
  exact ⟨by decide, by decide, h.2.2.2.2.2.2.2.2⟩

/-! ## C1: regeneration over unchanged data -/

theorem startsWithL_self_append (p q : List Char) : startsWithL p (p ++ q) = true := by
  induction p with
  | nil => rfl
  | cons a t ih => simp [startsWithL, ih]

theorem findMarker_cons_ne (pat : List Char) (c : Char) (t : List Char)
    (h : startsWithL pat (c :: t) = false) :
    findMarker pat (c :: t) = findMarker pat t := by
  simp [findMarker, h]

theorem startsWithL_head_ne (p c : Char) (ps cs : List Char) (h : ¬(p = c)) :
    startsWithL (p :: ps) (c :: cs) = false := by
  simp [startsWithL, h]

theorem startsWithL_second_ne (a b c : Char) (ps cs : List Char) (h : ¬(b = c)) :
    startsWithL (a :: b :: ps) (a :: c :: cs) = false := by
  simp [startsWithL, h]

/-- Scanning past a region that never contains the pattern head. -/
theorem findMarker_no_head (a : Char) (ps pre rest : List Char)
    (hpre : ∀ c ∈ pre, ¬(c = a)) :
    findMarker (a :: ps) (pre ++ rest) = findMarker (a :: ps) rest := by
  induction pre with
  | nil => rfl
  | cons c t ih =>
    rw [List.cons_append,
      findMarker_cons_ne _ _ _
        (startsWithL_head_ne a c ps _ (fun h => hpre c (List.mem_cons_self c t) h.symm)),
      ih (fun x hx => hpre x (List.mem_cons_of_mem c hx))]

theorem findMarker_self (a : Char) (p q : List Char) :
    findMarker (a :: p) ((a :: p) ++ q) = some q := by
  rw [List.cons_append, findMarker,
    if_pos (by rw [← List.cons_append]; exact startsWithL_self_append (a :: p) q),
    ← List.cons_append, List.drop_left]

theorem hexDigit_hex : ∀ n, n < 16 → isHexChar (hexDigit n) = true := by decide

/-- The digest's output alphabet is `[a-f0-9]`. -/
theorem md5Hex_hex (s : String) : ∀ c ∈ (md5Hex s).data, isHexChar c = true := by
  intro c hc
  simp only [md5Hex, List.mem_cons, List.not_mem_nil, or_false] at hc
  rcases hc with h | h | h | h | h | h | h | h <;>
    (subst h; exact hexDigit_hex _ (Nat.mod_lt _ (by norm_num)))

theorem md5Hex_ne_nil (s : String) : (md5Hex s).data ≠ [] := by
  simp [md5Hex]

theorem takeWhile_append_stop (p : Char → Bool) (xs : List Char) (y : Char) (ys : List Char)
    (hxs : ∀ a ∈ xs, p a = true) (hy : p y = false) :
    (xs ++ y :: ys).takeWhile p = xs := by
  induction xs with
  | nil => simp [List.takeWhile_cons, hy]
  | cons a t ih =>
    have ha : p a = true := hxs a (List.mem_cons_self a t)
    simp only [List.cons_append, List.takeWhile_cons, ha, if_true]
    rw [ih (fun b hb => hxs b (List.mem_cons_of_mem a hb))]

/-- Fingerprint extraction from any document of the generator's shape:
header, marker, a nonempty hex fingerprint, then the closing arrow. -/
theorem extractFingerprint_of_data (doc fp : String) (restData : List Char)
    (hdoc : doc.data = "<?xml version=\"1.0\" encoding=\"UTF-8\" ?>\n".data ++
      (fpMarker ++ (fp.data ++ (' ' :: '-' :: '-' :: '>' :: restData))))
    (hhex : ∀ c ∈ fp.data, isHexChar c = true) (hne : fp.data ≠ []) :
    extractFingerprint doc = some fp := by
  have hhead : ("<?xml version=\"1.0\" encoding=\"UTF-8\" ?>\n" : String).data =
      '<' :: '?' :: ("xml version=\"1.0\" encoding=\"UTF-8\" ?>\n" : String).data := rfl
  have hm : fpMarker = '<' :: '!' :: "-- DATA_FINGERPRINT:".data := rfl
  have hskip : findMarker fpMarker doc.data =
      some (fp.data ++ (' ' :: '-' :: '-' :: '>' :: restData)) := by
    rw [hdoc, hhead, List.cons_append, List.cons_append, hm,
      findMarker_cons_ne _ _ _ (startsWithL_second_ne '<' '!' '?' _ _ (by decide)),
      findMarker_cons_ne _ _ _ (startsWithL_head_ne '<' '?' _ _ (by decide)),
      findMarker_no_head '<' _ _ _ (by decide)]
    exact findMarker_self '<' _ _
  have htw : (fp.data ++ (' ' :: '-' :: '-' :: '>' :: restData)).takeWhile isHexChar =
      fp.data :=
    takeWhile_append_stop isHexChar fp.data ' ' _ hhex (by decide)
  simp only [extractFingerprint, hskip, htw]
  rw [if_neg (by simpa [List.isEmpty_iff] using hne : ¬(fp.data.isEmpty = true))]
  rw [List.drop_left]
  rw [show (' ' :: '-' :: '-' :: '>' :: restData) = " -->".data ++ restData from rfl]
  rw [if_pos (startsWithL_self_append " -->".data restData)]

/-- The character data of the generated document, in the shape
`extractFingerprint_of_data` scans. -/
theorem rssDoc_data (off now : Int) (items : List RssItem) (f d l : String) :
    (rssDoc off now items f d l).data =
      "<?xml version=\"1.0\" encoding=\"UTF-8\" ?>\n".data ++
      (fpMarker ++ ((rssFingerprint off now items).data ++
        (' ' :: '-' :: '-' :: '>' :: (rssDocTail off now items f d l).data))) := by
  have h4 : (" -->" : String).data = [' ', '-', '-', '>'] := rfl
  simp [rssDoc, String.data_append, fpMarker, h4]

/-- The generator always finds its own fingerprint again. -/
theorem extract_rssDoc (off now : Int) (items : List RssItem) (f d l : String) :
    extractFingerprint (rssDoc off now items f d l) = some (rssFingerprint off now items) := by
  refine extractFingerprint_of_data _ _ _ (rssDoc_data off now items f d l) ?_ ?_
  · exact md5Hex_hex _
  · exact md5Hex_ne_nil _

/-- `pubDate` does not read the wall clock when the item has a
creation date. -/
theorem rssPubDate_stable (off now1 now2 : Int) (it : RssItem)
    (h : it.creationDate.isSome = true) :
    rssPubDate off now1 it = rssPubDate off now2 it := by
  match hc : it.creationDate with
  | some c => simp [rssPubDate, hc]
  | none => rw [hc] at h; simp at h

theorem renderRssItem_stable (off now1 now2 : Int) (it : RssItem)
    (h : it.creationDate.isSome = true) :
    renderRssItem off now1 it = renderRssItem off now2 it := by
  simp only [renderRssItem, rssPubDate_stable off now1 now2 it h]

/-- C1, amended.  Two generator runs over the same processed item list
whose date filters agree (the source data unchanged and no item's
future/past status crossed between the runs) compute equal
fingerprints, and the second run's `hasContentChanged` comparison
reports no change — the write is skipped.  The full documents are
byte-identical only under the additional hypothesis that every kept
item carries a creation date: an item without one renders `pubDate`
from the generation wall clock (see the counterexample). -/
theorem C1_rss_regen_stable (off now1 now2 : Int) (items : List RssItem) (f d l : String)
    (hfilter : items.filter (rssDateOk off now1) = items.filter (rssDateOk off now2)) :
    rssFingerprint off now1 items = rssFingerprint off now2 items ∧
    hasContentChangedRss (rssDoc off now1 items f d l) (rssDoc off now2 items f d l) = false ∧
    ((∀ it ∈ items.filter (rssDateOk off now1), it.creationDate.isSome = true) →
      rssDoc off now1 items f d l = rssDoc off now2 items f d l) := by
  have hvs : rssValidSorted off now1 items = rssValidSorted off now2 items := by
    simp only [rssValidSorted, hfilter]
  have hfp : rssFingerprint off now1 items = rssFingerprint off now2 items := by
    simp only [rssFingerprint, hvs]
  have hlim : rssLimited off now1 items = rssLimited off now2 items := by
    simp only [rssLimited, hvs]
  refine ⟨hfp, ?_, ?_⟩
  · simp only [hasContentChangedRss, extract_rssDoc, hfp]
    simp
  · intro hall
    have hmem : ∀ it ∈ rssLimited off now1 items, it.creationDate.isSome = true := by
      intro it hit
      have h1 : it ∈ rssValidSorted off now1 items := (List.take_sublist _ _).subset hit
      have h2 : it ∈ items.filter (rssDateOk off now1) :=
        (sortDesc_perm off _).mem_iff.mp h1
      exact hall it h2
    have hrender : (rssLimited off now2 items).map (renderRssItem off now1) =
        (rssLimited off now2 items).map (renderRssItem off now2) := by
      apply List.map_congr_left
      intro it hit
      exact renderRssItem_stable off now1 now2 it (hmem it (by rw [hlim]; exact hit))
    have htail : rssDocTail off now1 items f d l = rssDocTail off now2 items f d l := by
      simp only [rssDocTail, hlim, hrender]
    simp only [rssDoc, hfp, htail]

/-- Witness for the amended C1: one opportunity with a creation date,
two runs an hour apart — equal fingerprints, no detected change,
byte-identical documents. -/
theorem C1_rss_regen_stable_witness :
    rssFingerprint 0 1700000000000 [processOppRss ⟨some "T1", none, none, some "2099-01-01",
        some "2024-01-01T00:00:00Z", none, none, none, none, false⟩] =
      rssFingerprint 0 1700003600000 [processOppRss ⟨some "T1", none, none, some "2099-01-01",
        some "2024-01-01T00:00:00Z", none, none, none, none, false⟩] ∧
    hasContentChangedRss
        (rssDoc 0 1700000000000 [processOppRss ⟨some "T1", none, none, some "2099-01-01",
          some "2024-01-01T00:00:00Z", none, none, none, none, false⟩] "T" "D" "L")
        (rssDoc 0 1700003600000 [processOppRss ⟨some "T1", none, none, some "2099-01-01",
          some "2024-01-01T00:00:00Z", none, none, none, none, false⟩] "T" "D" "L") = false ∧
    rssDoc 0 1700000000000 [processOppRss ⟨some "T1", none, none, some "2099-01-01",
        some "2024-01-01T00:00:00Z", none, none, none, none, false⟩] "T" "D" "L" =
      rssDoc 0 1700003600000 [processOppRss ⟨some "T1", none, none, some "2099-01-01",
        some "2024-01-01T00:00:00Z", none, none, none, none, false⟩] "T" "D" "L" := by
  have h := C1_rss_regen_stable 0 1700000000000 1700003600000
    [processOppRss ⟨some "T1", none, none, some "2099-01-01",
      some "2024-01-01T00:00:00Z", none, none, none, none, false⟩] "T" "D" "L" (by decide)
  exact ⟨h.1, h.2.1, h.2.2 (by decide)⟩

/-- Counterexample to C1 as stated: an event item (whose RSS
processing keeps no creation date) renders `pubDate` from the
generation wall clock, so two runs an hour apart over identical source
data produce different document bytes — while the fingerprint
comparison still reports no change, so the stale file is kept. -/
theorem C1_counterexample :
    hasContentChangedRss
        (rssDoc 0 1700000000000 [processEventRss ⟨some "Call", none, some "2099-01-01", none,
          none, none, none, none, none, none, none⟩] "T" "D" "L")
        (rssDoc 0 1700003600000 [processEventRss ⟨some "Call", none, some "2099-01-01", none,
          none, none, none, none, none, none, none⟩] "T" "D" "L") = false ∧
    ¬(rssDoc 0 1700000000000 [processEventRss ⟨some "Call", none, some "2099-01-01", none,
          none, none, none, none, none, none, none⟩] "T" "D" "L" =
      rssDoc 0 1700003600000 [processEventRss ⟨some "Call", none, some "2099-01-01", none,
          none, none, none, none, none, none, none⟩] "T" "D" "L") := by
  set_option maxRecDepth 8192 in decide

end CommunityOpps
